import Mathlib

/-!
The cert-manager webhook for Yandex.Connect DNS: the solver and the provider client.

A shallow embedding of `main.go` (the solver: `Present`, `CleanUp`,
`getDomainAndEntry`, `loadConfig`, `getPddToken`) and of
`yandexconnectclient.go` (the client: `getTextRecord`, `HasTxtRecord`,
`CreateTxtRecord`, `UpdateTxtRecord`, `DeleteTxtRecord`, `doRequest`).

Conventions of the embedding.

* Go strings are `String`; `fmt.Sprintf` with `%s`, `%d` and `%v` is
  concatenation with `toString`.
* A Go function returning `(T, error)` returns an `Outcome T`: `ok v` for a nil
  error, `error msg` for a non-nil error whose text is `msg`, `panic` for a
  run-time panic (the nil pointer dereference of `record.RecordId`).
* The network is explicit state. `Http σ` holds the two library behaviours the
  client relies on: whether `http.NewRequest` rejects a URL, and what one round
  trip (`httpClient.Do` then `ioutil.ReadAll`) returns from a provider in state
  `σ`. `World σ` pairs the provider state with the log of the requests sent so
  far (ghost state, used to speak about which requests an operation issues).
* A response body is a `Body`: what `json.Unmarshal` can see of the bytes.
-/

namespace YandexConnect

/-! ## Data model (`yandexconnectclient.go`) -/

/-- The constant `YandexConnectLiveDnsBaseUrl`. -/
def YandexConnectLiveDnsBaseUrl : String := "https://pddimp.yandex.ru/api2/admin/dns"

/-- The constant `DnsRecordTtl` of `main.go`. -/
def DnsRecordTtl : Int := 300

/-- The struct `YandexConnectDnsRecord`; the field `Type` is `Type_` here.
`RecordId`, `Ttl` and `Priority` are
unsigned machine integers in the source; the code only copies and prints them,
so they are natural numbers here. -/
structure YandexConnectDnsRecord where
  RecordId : Nat
  Type_ : String
  Domain : String
  Fqdn : String
  Ttl : Nat
  Subdomain : String
  Content : String
  Priority : Nat
deriving DecidableEq, Repr

/-- The struct `YandexConnectListResponse`. -/
structure YandexConnectListResponse where
  Domain : String
  Records : List YandexConnectDnsRecord
  Success : String
  Error : String
deriving DecidableEq, Repr

/-- The struct `YandexConnectAddResponse`. -/
structure YandexConnectAddResponse where
  Domain : String
  Record : YandexConnectDnsRecord
  Success : String
  Error : String
deriving DecidableEq, Repr

/-- The struct `YandexConnectUpdateResponse`. -/
structure YandexConnectUpdateResponse where
  Domain : String
  Record : YandexConnectDnsRecord
  Success : String
  Error : String
deriving DecidableEq, Repr

/-- The struct `YandexConnectDeleteResponse`. -/
structure YandexConnectDeleteResponse where
  Domain : String
  RecordId : Nat
  Success : String
  Error : String
deriving DecidableEq, Repr

/-- The struct `YandexConnectClient`. -/
structure YandexConnectClient where
  pddToken : String
  dumpRequestResponse : Bool
deriving DecidableEq, Repr

/-- The constructor `NewYandexConnectClient`. -/
def NewYandexConnectClient (pddToken : String) : YandexConnectClient :=
  { pddToken := pddToken, dumpRequestResponse := false }

/-- The zero value of `YandexConnectDnsRecord`. -/
def zeroRecord : YandexConnectDnsRecord :=
  { RecordId := 0, Type_ := "", Domain := "", Fqdn := "", Ttl := 0,
    Subdomain := "", Content := "", Priority := 0 }

/-! ## Response bodies and `json.Unmarshal` -/

/-- The members of a JSON object that the response structs name. A member is
`none` when the object lacks it or holds a value of another JSON type, in which
case `json.Unmarshal` leaves the struct field at its zero value. -/
structure JsonFields where
  domain : Option String
  records : Option (List YandexConnectDnsRecord)
  record : Option YandexConnectDnsRecord
  record_id : Option Nat
  success : Option String
  error : Option String
deriving DecidableEq, Repr

/-- A response body as `json.Unmarshal` sees it: either text that is not a JSON
object (the empty body, text that is not valid JSON, or a JSON value of another
kind), or a JSON object. -/
inductive Body where
  | malformed (raw : String)
  | object (fields : JsonFields)
deriving DecidableEq, Repr

/-- The effect of `json.Unmarshal(data, &response)` on a zero-valued
`YandexConnectListResponse`; the error it returns is dropped by the caller.
Text that is not a JSON object stores nothing. -/
def unmarshalListResponse : Body → YandexConnectListResponse
  | .malformed _ => { Domain := "", Records := [], Success := "", Error := "" }
  | .object f =>
    { Domain := f.domain.getD "", Records := f.records.getD [],
      Success := f.success.getD "", Error := f.error.getD "" }

/-- The effect of `json.Unmarshal` on a zero-valued `YandexConnectAddResponse`. -/
def unmarshalAddResponse : Body → YandexConnectAddResponse
  | .malformed _ => { Domain := "", Record := zeroRecord, Success := "", Error := "" }
  | .object f =>
    { Domain := f.domain.getD "", Record := f.record.getD zeroRecord,
      Success := f.success.getD "", Error := f.error.getD "" }

/-- The effect of `json.Unmarshal` on a zero-valued `YandexConnectUpdateResponse`. -/
def unmarshalUpdateResponse : Body → YandexConnectUpdateResponse
  | .malformed _ => { Domain := "", Record := zeroRecord, Success := "", Error := "" }
  | .object f =>
    { Domain := f.domain.getD "", Record := f.record.getD zeroRecord,
      Success := f.success.getD "", Error := f.error.getD "" }

/-- The effect of `json.Unmarshal` on a zero-valued `YandexConnectDeleteResponse`. -/
def unmarshalDeleteResponse : Body → YandexConnectDeleteResponse
  | .malformed _ => { Domain := "", RecordId := 0, Success := "", Error := "" }
  | .object f =>
    { Domain := f.domain.getD "", RecordId := f.record_id.getD 0,
      Success := f.success.getD "", Error := f.error.getD "" }

/-! ## Outcomes, requests and the network -/

/-- The result of a Go call that returns a value and an `error`. -/
inductive Outcome (α : Type) where
  | ok (value : α)
  | error (msg : String)
  | panic
deriving DecidableEq, Repr

/-- An `*http.Request` as far as the client determines it: the method, the URL
string given to `http.NewRequest`, and the headers set afterwards. -/
structure Request where
  method : String
  url : String
  header : List (String × String)
deriving DecidableEq, Repr

/-- The library behaviour the client depends on. `urlError url` is the error of
`http.NewRequest` for that URL (`none` when the request is built);
`roundTrip p r` is the outcome of `httpClient.Do` followed by `ioutil.ReadAll`
against a provider in state `p`: the body read or the transport error, and the
provider's next state. -/
structure Http (σ : Type) where
  urlError : String → Option String
  roundTrip : σ → Request → Except String Body × σ

/-- The provider state together with the log of requests sent so far. -/
structure World (σ : Type) where
  provider : σ
  sent : List Request

/-- The call `http.NewRequest(method, url, nil)`. -/
def NewRequest {σ : Type} (http : Http σ) (method url : String) : Except String Request :=
  match http.urlError url with
  | some e => .error e
  | none => .ok { method := method, url := url, header := [] }

/-- The call `request.Header.Set(key, value)`: replaces any value stored under
the key. -/
def headerSet (header : List (String × String)) (key value : String) :
    List (String × String) :=
  (key, value) :: header.filter (fun kv => kv.1 != key)

/-- The method `doRequest`: sets the `PddToken` header, sends the request and
reads the whole body. The dump of request and response, only printed when
`dumpRequestResponse` is set, has no effect on the result. -/
def doRequest {σ : Type} (yandexConnectClient : YandexConnectClient) (http : Http σ)
    (request : Request) (w : World σ) : Except String Body × World σ :=
  let request := { request with
    header := headerSet request.header "PddToken" yandexConnectClient.pddToken }
  match http.roundTrip w.provider request with
  | (.error e, p) => (.error e, { provider := p, sent := w.sent ++ [request] })
  | (.ok data, p) => (.ok data, { provider := p, sent := w.sent ++ [request] })

/-! ## The client operations -/

/-- The loop of `getTextRecord`: the first record, in listing order, whose type
is `TXT` and whose subdomain equals `name`. -/
def scanRecords (name : String) : List YandexConnectDnsRecord → Option YandexConnectDnsRecord
  | [] => none
  | record :: rest =>
    if record.Type_ = "TXT" ∧ record.Subdomain = name then some record
    else scanRecords name rest

/-- The URL built by `getTextRecord`. -/
def listUrl (domain : String) : String :=
  YandexConnectLiveDnsBaseUrl ++ "/list?domain=" ++ domain

/-- The URL built by `CreateTxtRecord`. -/
def addUrl (domain name value : String) (ttl : Int) : String :=
  YandexConnectLiveDnsBaseUrl ++ "/add?domain=" ++ domain ++ "&subdomain=" ++ name
    ++ "&type=TXT&content=" ++ value ++ "&ttl=" ++ toString ttl

/-- The URL built by `UpdateTxtRecord`. -/
def editUrl (recordId : Nat) (domain name value : String) (ttl : Int) : String :=
  YandexConnectLiveDnsBaseUrl ++ "/edit?record_id=" ++ toString recordId ++ "&domain=" ++ domain
    ++ "&subdomain=" ++ name ++ "&type=TXT&content=" ++ value ++ "&ttl=" ++ toString ttl

/-- The URL built by `DeleteTxtRecord`. -/
def delUrl (recordId : Nat) (domain : String) : String :=
  YandexConnectLiveDnsBaseUrl ++ "/del?record_id=" ++ toString recordId ++ "&domain=" ++ domain

/-- The method `getTextRecord`. -/
def getTextRecord {σ : Type} (yandexConnectClient : YandexConnectClient) (http : Http σ)
    (domain name : String) (w : World σ) : Outcome (Option YandexConnectDnsRecord) × World σ :=
  let url := listUrl domain
  match NewRequest http "GET" url with
  | .error e => (.error e, w)
  | .ok request =>
    match doRequest yandexConnectClient http request w with
    | (.error e, w1) => (.error e, w1)
    | (.ok data, w1) =>
      let response := unmarshalListResponse data
      if response.Success = "error" then
        (.error ("list DNS-records request for domain " ++ domain ++ " failed with error: '"
          ++ response.Error ++ "'"), w1)
      else (.ok (scanRecords name response.Records), w1)

/-- The method `HasTxtRecord`. -/
def HasTxtRecord {σ : Type} (yandexConnectClient : YandexConnectClient) (http : Http σ)
    (domain name : String) (w : World σ) : Outcome Bool × World σ :=
  match getTextRecord yandexConnectClient http domain name w with
  | (.error _, w1) => (.ok false, w1)
  | (.panic, w1) => (.panic, w1)
  | (.ok record, w1) => (.ok record.isSome, w1)

/-- The method `CreateTxtRecord`. -/
def CreateTxtRecord {σ : Type} (yandexConnectClient : YandexConnectClient) (http : Http σ)
    (domain name value : String) (ttl : Int) (w : World σ) : Outcome Unit × World σ :=
  let url := addUrl domain name value ttl
  match NewRequest http "POST" url with
  | .error e => (.error e, w)
  | .ok request =>
    match doRequest yandexConnectClient http request w with
    | (.error e, w1) => (.error e, w1)
    | (.ok data, w1) =>
      let response := unmarshalAddResponse data
      if response.Success = "error" then
        (.error ("add DNS-record request for domain " ++ domain ++ " failed with error: '"
          ++ response.Error ++ "'"), w1)
      else (.ok (), w1)

/-- The method `UpdateTxtRecord`. Reading `record.RecordId` of a nil record
panics. -/
def UpdateTxtRecord {σ : Type} (yandexConnectClient : YandexConnectClient) (http : Http σ)
    (domain name value : String) (ttl : Int) (w : World σ) : Outcome Unit × World σ :=
  match getTextRecord yandexConnectClient http domain name w with
  | (.error e, w1) => (.error e, w1)
  | (.panic, w1) => (.panic, w1)
  | (.ok none, w1) => (.panic, w1)
  | (.ok (some record), w1) =>
    let url := editUrl record.RecordId domain name value ttl
    match NewRequest http "POST" url with
    | .error e => (.error e, w1)
    | .ok request =>
      match doRequest yandexConnectClient http request w1 with
      | (.error e, w2) => (.error e, w2)
      | (.ok data, w2) =>
        let response := unmarshalUpdateResponse data
        if response.Success = "error" then
          (.error ("update DNS-record request for domain " ++ domain ++ " failed with error: '"
            ++ response.Error ++ "'"), w2)
        else (.ok (), w2)

/-- The method `DeleteTxtRecord`. Reading `record.RecordId` of a nil record
panics. -/
def DeleteTxtRecord {σ : Type} (yandexConnectClient : YandexConnectClient) (http : Http σ)
    (domain name : String) (w : World σ) : Outcome Unit × World σ :=
  match getTextRecord yandexConnectClient http domain name w with
  | (.error e, w1) => (.error e, w1)
  | (.panic, w1) => (.panic, w1)
  | (.ok none, w1) => (.panic, w1)
  | (.ok (some record), w1) =>
    let url := delUrl record.RecordId domain
    match NewRequest http "POST" url with
    | .error e => (.error e, w1)
    | .ok request =>
      match doRequest yandexConnectClient http request w1 with
      | (.error e, w2) => (.error e, w2)
      | (.ok data, w2) =>
        let response := unmarshalDeleteResponse data
        if response.Success = "error" then
          (.error ("delete DNS-record request for domain " ++ domain ++ " failed with error: '"
            ++ response.Error ++ "'"), w2)
        else (.ok (), w2)

/-! ## The solver (`main.go`) -/

/-- The struct `cmmeta.SecretKeySelector` as far as the solver reads it. -/
structure SecretKeySelector where
  Name : String
  Key : String
deriving DecidableEq, Repr

/-- The struct `yandexConnectDNSProviderConfig`. -/
structure yandexConnectDNSProviderConfig where
  PddTokenSecretRef : SecretKeySelector
deriving DecidableEq, Repr

/-- The fields of `v1alpha1.ChallengeRequest` that the solver reads. `Config` is
`none` for a nil pointer; otherwise it holds what `json.Unmarshal` makes of the
raw configuration: the decoded struct or the decoding error. -/
structure ChallengeRequest where
  ResourceNamespace : String
  ResolvedZone : String
  ResolvedFQDN : String
  Key : String
  Config : Option (Except String yandexConnectDNSProviderConfig)

/-- The struct `yandexConnectDNSProviderSolver` after `Initialize`: the
Kubernetes client, reduced to the lookup the solver performs,
`Secrets(namespace).Get(name)`, which yields the secret's data or an error. -/
structure yandexConnectDNSProviderSolver where
  client : String → String → Except String (List (String × String))

/-- The function `strings.TrimSuffix`. -/
def TrimSuffix (s suffix : String) : String :=
  if suffix.data.isSuffixOf s.data then
    ⟨s.data.take (s.data.length - suffix.data.length)⟩
  else s

/-- The method `getDomainAndEntry`; the result is `(entry, domain)`. -/
def getDomainAndEntry (challengeRequest : ChallengeRequest) : String × String :=
  let entry := TrimSuffix challengeRequest.ResolvedFQDN challengeRequest.ResolvedZone
  let entry := TrimSuffix entry "."
  let domain := TrimSuffix challengeRequest.ResolvedZone "."
  (entry, domain)

/-- The function `loadConfig`. -/
def loadConfig (configurationJSON : Option (Except String yandexConnectDNSProviderConfig)) :
    Outcome yandexConnectDNSProviderConfig :=
  match configurationJSON with
  | none => .ok { PddTokenSecretRef := { Name := "", Key := "" } }
  | some (.error e) => .error ("error decoding solver config: " ++ e)
  | some (.ok configuration) => .ok configuration

/-- The method `getPddToken`. The verb `%q` is rendered by `String.quote`. -/
def getPddToken (solver : yandexConnectDNSProviderSolver)
    (config : yandexConnectDNSProviderConfig) (namespace_ : String) : Outcome String :=
  let secretName := config.PddTokenSecretRef.Name
  match solver.client namespace_ secretName with
  | .error e => .error ("unable to get secret `" ++ secretName ++ "`; " ++ e)
  | .ok data =>
    match data.lookup config.PddTokenSecretRef.Key with
    | none =>
      .error ("key " ++ config.PddTokenSecretRef.Key.quote ++ " not found in secret \""
        ++ config.PddTokenSecretRef.Name ++ "/" ++ namespace_ ++ "\"")
    | some secretContent => .ok secretContent

/-- The method `Present`. -/
def Present {σ : Type} (solver : yandexConnectDNSProviderSolver) (http : Http σ)
    (challengeRequest : ChallengeRequest) (w : World σ) : Outcome Unit × World σ :=
  match loadConfig challengeRequest.Config with
  | .panic => (.panic, w)
  | .error e => (.error ("unable to load config: " ++ e), w)
  | .ok configuration =>
    match getPddToken solver configuration challengeRequest.ResourceNamespace with
    | .panic => (.panic, w)
    | .error e => (.error ("unable to get PDD Token: " ++ e), w)
    | .ok pddToken =>
      let yandexConnectClient := NewYandexConnectClient pddToken
      let (entry, domain) := getDomainAndEntry challengeRequest
      match HasTxtRecord yandexConnectClient http domain entry w with
      | (.panic, w1) => (.panic, w1)
      | (.error e, w1) => (.error ("unable to check TXT record: " ++ e), w1)
      | (.ok isRecordPresent, w1) =>
        if isRecordPresent then
          match UpdateTxtRecord yandexConnectClient http domain entry challengeRequest.Key
              DnsRecordTtl w1 with
          | (.panic, w2) => (.panic, w2)
          | (.error e, w2) => (.error ("unable to change TXT record: " ++ e), w2)
          | (.ok _, w2) => (.ok (), w2)
        else
          match CreateTxtRecord yandexConnectClient http domain entry challengeRequest.Key
              DnsRecordTtl w1 with
          | (.panic, w2) => (.panic, w2)
          | (.error e, w2) => (.error ("unable to create TXT record: " ++ e), w2)
          | (.ok _, w2) => (.ok (), w2)

/-- The method `CleanUp`. -/
def CleanUp {σ : Type} (solver : yandexConnectDNSProviderSolver) (http : Http σ)
    (challengeRequest : ChallengeRequest) (w : World σ) : Outcome Unit × World σ :=
  match loadConfig challengeRequest.Config with
  | .panic => (.panic, w)
  | .error e => (.error e, w)
  | .ok configuration =>
    match getPddToken solver configuration challengeRequest.ResourceNamespace with
    | .panic => (.panic, w)
    | .error e => (.error ("unable to get API key: " ++ e), w)
    | .ok pddToken =>
      let yandexConnectClient := NewYandexConnectClient pddToken
      let (entry, domain) := getDomainAndEntry challengeRequest
      match HasTxtRecord yandexConnectClient http domain entry w with
      | (.panic, w1) => (.panic, w1)
      | (.error e, w1) => (.error ("unable to check TXT record: " ++ e), w1)
      | (.ok isRecordPresent, w1) =>
        if isRecordPresent then
          match DeleteTxtRecord yandexConnectClient http domain entry w1 with
          | (.panic, w2) => (.panic, w2)
          | (.error e, w2) => (.error ("unable to remove TXT record: " ++ e), w2)
          | (.ok _, w2) => (.ok (), w2)
        else (.ok (), w1)

/-! ## Reading a query string

The reference against which the URLs built by the client are compared: the
parameters a reader of the URL obtains from its query component
(`application/x-www-form-urlencoded`, as in Go's `url.ParseQuery`). Escapes
are decoded character by character, which agrees with decoding bytes on ASCII
text. -/

/-- The query component of a URL: what follows the first `?`, the fragment
(from the first `#` on) being cut off first. -/
def queryOf (url : List Char) : List Char :=
  ((url.takeWhile (fun c => c != '#')).dropWhile (fun c => c != '?')).drop 1

/-- The pieces of a text between the occurrences of a separator. -/
def splitOn (sep : Char) : List Char → List (List Char)
  | [] => [[]]
  | c :: cs =>
    if c = sep then [] :: splitOn sep cs
    else
      match splitOn sep cs with
      | [] => [[c]]
      | piece :: pieces => (c :: piece) :: pieces

/-- The value of a hexadecimal digit. -/
def hexVal (c : Char) : Option Nat :=
  if '0' ≤ c ∧ c ≤ '9' then some (c.toNat - '0'.toNat)
  else if 'a' ≤ c ∧ c ≤ 'f' then some (c.toNat - 'a'.toNat + 10)
  else if 'A' ≤ c ∧ c ≤ 'F' then some (c.toNat - 'A'.toNat + 10)
  else none

/-- Query unescaping of one character that is not `%`: `+` stands for a space. -/
def plusToSpace (c : Char) : Char := if c = '+' then ' ' else c

/-- Query unescaping: `%XY` stands for the character with code `XY`, `+` for a
space; a `%` not followed by two hexadecimal digits is an error. -/
def unescape : List Char → Option (List Char)
  | [] => some []
  | [c] => if c = '%' then none else some [plusToSpace c]
  | [c, a] => if c = '%' then none else (unescape [a]).map (fun t => plusToSpace c :: t)
  | c :: a :: b :: rest =>
    if c = '%' then
      match hexVal a, hexVal b with
      | some x, some y => (unescape rest).map (fun t => Char.ofNat (16 * x + y) :: t)
      | _, _ => none
    else (unescape (a :: b :: rest)).map (fun t => plusToSpace c :: t)

/-- One `key=value` piece, cut at its first `=` and unescaped. -/
def parsePair (piece : List Char) : Option (String × String) :=
  let key := piece.takeWhile (fun c => c != '=')
  let value := (piece.dropWhile (fun c => c != '=')).drop 1
  match unescape key, unescape value with
  | some k, some v => some (⟨k⟩, ⟨v⟩)
  | _, _ => none

/-- The parameters of a list of pieces, in order; empty pieces are skipped. -/
def parsePairs : List (List Char) → Option (List (String × String))
  | [] => some []
  | piece :: pieces =>
    if piece = [] then parsePairs pieces
    else
      match parsePair piece, parsePairs pieces with
      | some kv, some kvs => some (kv :: kvs)
      | _, _ => none

/-- The parameters carried by the query string of a URL, in order of
appearance, or `none` when an escape is malformed. -/
def parseQuery (url : String) : Option (List (String × String)) :=
  parsePairs (splitOn '&' (queryOf url.data))

/-- The characters that percent-encoding leaves as they are (RFC 3986,
unreserved): letters, digits, `-`, `.`, `_`, `~`. -/
def unreserved (c : Char) : Bool :=
  c.isAlphanum || c == '-' || c == '.' || c == '_' || c == '~'

/-- A text made of unreserved characters only. -/
def Unreserved (s : String) : Prop := ∀ c ∈ s.data, unreserved c = true

instance (s : String) : Decidable (Unreserved s) := by
  unfold Unreserved; infer_instance

/-! ## Requests as sent, and fixtures -/

/-- The request that `doRequest` sends for a request freshly built by
`http.NewRequest`: the method, the URL, and the `PddToken` header. -/
def signed (pddToken method url : String) : Request :=
  { method := method, url := url, header := [("PddToken", pddToken)] }

/-- Whether a record is a TXT record of the given subdomain: the test made by
the loop of `getTextRecord`. -/
def IsTxtOf (name : String) (record : YandexConnectDnsRecord) : Prop :=
  record.Type_ = "TXT" ∧ record.Subdomain = name

instance (name : String) (record : YandexConnectDnsRecord) : Decidable (IsTxtOf name record) := by
  unfold IsTxtOf; infer_instance

/-- A provider that answers every GET with one scripted outcome and every other
request with another; it has no state. -/
def scriptedHttp (listing written : Except String Body) : Http Unit :=
  { urlError := fun _ => none
    roundTrip := fun _ request => (if request.method = "GET" then listing else written, ()) }

/-- A JSON object body reporting success and listing the given records. -/
def listingBody (domain : String) (records : List YandexConnectDnsRecord) : Body :=
  .object { domain := some domain, records := some records, record := none,
            record_id := none, success := some "ok", error := none }

/-- A JSON object body reporting the outcome of a write. -/
def statusBody (domain success : String) (error : Option String) : Body :=
  .object { domain := some domain, records := none, record := none,
            record_id := none, success := some success, error := error }

/-- A TXT record of `example.com`. -/
def txtRecord (recordId : Nat) (subdomain content : String) : YandexConnectDnsRecord :=
  { RecordId := recordId, Type_ := "TXT", Domain := "example.com",
    Fqdn := subdomain ++ ".example.com", Ttl := 300, Subdomain := subdomain,
    Content := content, Priority := 0 }

/-- A solver whose secret store holds the token `secret` under the key `token`. -/
def exampleSolver : yandexConnectDNSProviderSolver :=
  { client := fun _ _ => .ok [("token", "secret")] }

/-- A challenge for `_acme-challenge.example.com.` in the zone `example.com.`. -/
def exampleChallenge (key : String) : ChallengeRequest :=
  { ResourceNamespace := "cert-manager", ResolvedZone := "example.com.",
    ResolvedFQDN := "_acme-challenge.example.com.", Key := key,
    Config := some (.ok { PddTokenSecretRef := { Name := "yandex", Key := "token" } }) }

/-- The world before any request, for a stateless provider. -/
def startWorld : World Unit := { provider := (), sent := [] }

/-! ## A provider holding a list of records

The provider of the idempotence property: its state is the list of records of
the zone; /list reports them, /add appends a TXT record with a fresh id, /edit
overwrites the record with the given id, /del removes it; every answer reports
success. How the provider reads a request is a parameter. -/

/-- What a provider reads in a request. -/
inductive Operation where
  | list (domain : String)
  | add (domain subdomain content : String) (ttl : Int)
  | edit (recordId : Nat) (domain subdomain content : String) (ttl : Int)
  | del (recordId : Nat) (domain : String)
deriving DecidableEq, Repr

/-- An id larger than every id in the list. -/
def freshId (records : List YandexConnectDnsRecord) : Nat :=
  (records.map (fun r => r.RecordId)).foldr max 0 + 1

/-- The record that /add creates. -/
def newRecord (recordId : Nat) (domain subdomain content : String) (ttl : Int) :
    YandexConnectDnsRecord :=
  { RecordId := recordId, Type_ := "TXT", Domain := domain,
    Fqdn := subdomain ++ "." ++ domain, Ttl := ttl.toNat, Subdomain := subdomain,
    Content := content, Priority := 0 }

/-- The effect of /edit on one record: the record with the given id takes the
values of the request, any other record is left as it is. -/
def overwrite (recordId : Nat) (domain subdomain content : String) (ttl : Int)
    (record : YandexConnectDnsRecord) : YandexConnectDnsRecord :=
  if record.RecordId = recordId then
    { record with Type_ := "TXT", Domain := domain, Fqdn := subdomain ++ "." ++ domain,
                  Ttl := ttl.toNat, Subdomain := subdomain, Content := content }
  else record

/-- The provider over a list of records, reading requests with `decode`
(applied to the method and the URL). -/
def recordProvider (decode : String → String → Option Operation) :
    Http (List YandexConnectDnsRecord) :=
  { urlError := fun _ => none
    roundTrip := fun records request =>
      match decode request.method request.url with
      | none => (.error "400 Bad Request", records)
      | some (.list domain) => (.ok (listingBody domain records), records)
      | some (.add domain subdomain content ttl) =>
        (.ok (statusBody domain "ok" none),
          records ++ [newRecord (freshId records) domain subdomain content ttl])
      | some (.edit recordId domain subdomain content ttl) =>
        (.ok (statusBody domain "ok" none),
          records.map (overwrite recordId domain subdomain content ttl))
      | some (.del recordId domain) =>
        (.ok (statusBody domain "ok" none),
          records.filter (fun r => r.RecordId != recordId)) }

/-- The provider reads the requests that `Present` builds for a domain, a
subdomain and a value as they were meant, the /edit requests for the record ids
in `ids`. -/
def ReadsAsSent (decode : String → String → Option Operation)
    (domain name value : String) (ids : List Nat) : Prop :=
  decode "GET" (listUrl domain) = some (.list domain) ∧
  decode "POST" (addUrl domain name value DnsRecordTtl)
    = some (.add domain name value DnsRecordTtl) ∧
  ∀ id ∈ ids, decode "POST" (editUrl id domain name value DnsRecordTtl)
    = some (.edit id domain name value DnsRecordTtl)

/-- A decimal numeral. -/
def parseNat (digits : List Char) : Option Nat :=
  if digits = [] then none
  else digits.foldl
    (fun acc c => match acc with
      | none => none
      | some n => if c.isDigit then some (10 * n + (c.toNat - '0'.toNat)) else none)
    (some 0)

/-- A decimal numeral with an optional minus sign. -/
def parseInt (text : List Char) : Option Int :=
  match text with
  | '-' :: digits => (parseNat digits).map (fun n => - (n : Int))
  | digits => (parseNat digits).map (fun n => (n : Int))

/-- A reader of requests by the wire protocol: the endpoint is the last segment
of the path, the arguments are the parameters of the query string. -/
def readRequest (method url : String) : Option Operation :=
  let path := (url.data.takeWhile (fun c => c != '#')).takeWhile (fun c => c != '?')
  match parseQuery url with
  | none => none
  | some params =>
    if method = "GET" ∧ path = (YandexConnectLiveDnsBaseUrl ++ "/list").data then
      (params.lookup "domain").map Operation.list
    else if method = "POST" ∧ path = (YandexConnectLiveDnsBaseUrl ++ "/add").data then
      match params.lookup "domain", params.lookup "subdomain", params.lookup "content",
          (params.lookup "ttl").bind (fun t => parseInt t.data) with
      | some d, some s, some v, some t => some (.add d s v t)
      | _, _, _, _ => none
    else if method = "POST" ∧ path = (YandexConnectLiveDnsBaseUrl ++ "/edit").data then
      match (params.lookup "record_id").bind (fun t => parseNat t.data),
          params.lookup "domain", params.lookup "subdomain", params.lookup "content",
          (params.lookup "ttl").bind (fun t => parseInt t.data) with
      | some i, some d, some s, some v, some t => some (.edit i d s v t)
      | _, _, _, _, _ => none
    else if method = "POST" ∧ path = (YandexConnectLiveDnsBaseUrl ++ "/del").data then
      match (params.lookup "record_id").bind (fun t => parseNat t.data),
          params.lookup "domain" with
      | some i, some d => some (.del i d)
      | _, _ => none
    else none

/-! # Theorems -/

/-! ## Zone and entry of a challenge -/

theorem TrimSuffix_append (a b : String) : TrimSuffix (a ++ b) b = a := by
  apply String.ext
  simp [TrimSuffix]

/-- C10: for every entry `e` and zone name `z`, a challenge request with
`ResolvedZone = z ++ "."` and `ResolvedFQDN = e ++ "." ++ z ++ "."` makes
`getDomainAndEntry` return the entry `e` first and the domain `z` second. -/
theorem getDomainAndEntry_recovers (e z ns key : String)
    (cfg : Option (Except String yandexConnectDNSProviderConfig)) :
    getDomainAndEntry
      { ResourceNamespace := ns, ResolvedZone := z ++ ".",
        ResolvedFQDN := e ++ "." ++ z ++ ".", Key := key, Config := cfg } = (e, z) := by
  have h1 : e ++ "." ++ z ++ "." = (e ++ ".") ++ (z ++ ".") := by
    simp [String.append_assoc]
  simp only [getDomainAndEntry, h1, TrimSuffix_append]

/-! ## The client, step by step -/

theorem doRequest_sent {σ : Type} (c : YandexConnectClient) (http : Http σ)
    (method url : String) (w : World σ) (res : Except String Body) (p : σ)
    (hrt : http.roundTrip w.provider (signed c.pddToken method url) = (res, p)) :
    doRequest c http { method := method, url := url, header := [] } w =
      (res, { provider := p, sent := w.sent ++ [signed c.pddToken method url] }) := by
  have hs : Request.mk method url (headerSet [] "PddToken" c.pddToken)
      = signed c.pddToken method url := by
    simp [signed, headerSet]
  unfold doRequest
  simp only [hs, hrt]
  cases res <;> rfl

theorem NewRequest_ok {σ : Type} (http : Http σ) (method url : String)
    (hurl : http.urlError url = none) :
    NewRequest http method url = .ok { method := method, url := url, header := [] } := by
  simp only [NewRequest, hurl]

theorem getTextRecord_delivered {σ : Type} (c : YandexConnectClient) (http : Http σ)
    (domain name : String) (w : World σ) (body : Body) (p : σ)
    (hurl : http.urlError (listUrl domain) = none)
    (hrt : http.roundTrip w.provider (signed c.pddToken "GET" (listUrl domain)) = (.ok body, p)) :
    getTextRecord c http domain name w =
      (if (unmarshalListResponse body).Success = "error" then
        .error ("list DNS-records request for domain " ++ domain ++ " failed with error: '"
          ++ (unmarshalListResponse body).Error ++ "'")
      else .ok (scanRecords name (unmarshalListResponse body).Records),
      { provider := p, sent := w.sent ++ [signed c.pddToken "GET" (listUrl domain)] }) := by
  simp only [getTextRecord, NewRequest_ok http _ _ hurl, doRequest_sent c http _ _ w _ p hrt]
  split <;> rfl

theorem getTextRecord_transport_error {σ : Type} (c : YandexConnectClient) (http : Http σ)
    (domain name : String) (w : World σ) (e : String) (p : σ)
    (hurl : http.urlError (listUrl domain) = none)
    (hrt : http.roundTrip w.provider (signed c.pddToken "GET" (listUrl domain)) = (.error e, p)) :
    getTextRecord c http domain name w =
      (.error e,
      { provider := p, sent := w.sent ++ [signed c.pddToken "GET" (listUrl domain)] }) := by
  simp only [getTextRecord, NewRequest_ok http _ _ hurl, doRequest_sent c http _ _ w _ p hrt]

theorem CreateTxtRecord_delivered {σ : Type} (c : YandexConnectClient) (http : Http σ)
    (domain name value : String) (ttl : Int) (w : World σ) (body : Body) (p : σ)
    (hurl : http.urlError (addUrl domain name value ttl) = none)
    (hrt : http.roundTrip w.provider (signed c.pddToken "POST" (addUrl domain name value ttl))
      = (.ok body, p)) :
    CreateTxtRecord c http domain name value ttl w =
      (if (unmarshalAddResponse body).Success = "error" then
        .error ("add DNS-record request for domain " ++ domain ++ " failed with error: '"
          ++ (unmarshalAddResponse body).Error ++ "'")
      else .ok (),
      { provider := p,
        sent := w.sent ++ [signed c.pddToken "POST" (addUrl domain name value ttl)] }) := by
  simp only [CreateTxtRecord, NewRequest_ok http _ _ hurl, doRequest_sent c http _ _ w _ p hrt]
  split <;> rfl

theorem UpdateTxtRecord_delivered {σ : Type} (c : YandexConnectClient) (http : Http σ)
    (domain name value : String) (ttl : Int) (w w1 : World σ) (record : YandexConnectDnsRecord)
    (body : Body) (p : σ)
    (hget : getTextRecord c http domain name w = (.ok (some record), w1))
    (hurl : http.urlError (editUrl record.RecordId domain name value ttl) = none)
    (hrt : http.roundTrip w1.provider
      (signed c.pddToken "POST" (editUrl record.RecordId domain name value ttl)) = (.ok body, p)) :
    UpdateTxtRecord c http domain name value ttl w =
      (if (unmarshalUpdateResponse body).Success = "error" then
        .error ("update DNS-record request for domain " ++ domain ++ " failed with error: '"
          ++ (unmarshalUpdateResponse body).Error ++ "'")
      else .ok (),
      { provider := p,
        sent := w1.sent ++
          [signed c.pddToken "POST" (editUrl record.RecordId domain name value ttl)] }) := by
  simp only [UpdateTxtRecord, hget, NewRequest_ok http _ _ hurl,
    doRequest_sent c http _ _ w1 _ p hrt]
  split <;> rfl

theorem DeleteTxtRecord_delivered {σ : Type} (c : YandexConnectClient) (http : Http σ)
    (domain name : String) (w w1 : World σ) (record : YandexConnectDnsRecord)
    (body : Body) (p : σ)
    (hget : getTextRecord c http domain name w = (.ok (some record), w1))
    (hurl : http.urlError (delUrl record.RecordId domain) = none)
    (hrt : http.roundTrip w1.provider
      (signed c.pddToken "POST" (delUrl record.RecordId domain)) = (.ok body, p)) :
    DeleteTxtRecord c http domain name w =
      (if (unmarshalDeleteResponse body).Success = "error" then
        .error ("delete DNS-record request for domain " ++ domain ++ " failed with error: '"
          ++ (unmarshalDeleteResponse body).Error ++ "'")
      else .ok (),
      { provider := p,
        sent := w1.sent ++ [signed c.pddToken "POST" (delUrl record.RecordId domain)] }) := by
  simp only [DeleteTxtRecord, hget, NewRequest_ok http _ _ hurl,
    doRequest_sent c http _ _ w1 _ p hrt]
  split <;> rfl

theorem getTextRecord_found {σ : Type} (c : YandexConnectClient) (http : Http σ)
    (domain name : String) (w : World σ) (body : Body) (p : σ)
    (hurl : http.urlError (listUrl domain) = none)
    (hrt : http.roundTrip w.provider (signed c.pddToken "GET" (listUrl domain)) = (.ok body, p))
    (hok : (unmarshalListResponse body).Success ≠ "error") :
    getTextRecord c http domain name w =
      (.ok (scanRecords name (unmarshalListResponse body).Records),
      { provider := p, sent := w.sent ++ [signed c.pddToken "GET" (listUrl domain)] }) := by
  rw [getTextRecord_delivered c http domain name w body p hurl hrt, if_neg hok]

/-! ## The scan of `getTextRecord` -/

theorem scanRecords_some {name : String} {l : List YandexConnectDnsRecord}
    {r : YandexConnectDnsRecord} (h : scanRecords name l = some r) :
    IsTxtOf name r ∧
      ∃ front back, l = front ++ r :: back ∧ ∀ x ∈ front, ¬ IsTxtOf name x := by
  induction l with
  | nil => simp [scanRecords] at h
  | cons a rest ih =>
    unfold scanRecords at h
    by_cases ha : a.Type_ = "TXT" ∧ a.Subdomain = name
    · rw [if_pos ha] at h
      cases h
      exact ⟨ha, [], rest, rfl, by simp⟩
    · rw [if_neg ha] at h
      obtain ⟨h1, front, back, hl, hfront⟩ := ih h
      refine ⟨h1, a :: front, back, by simp [hl], ?_⟩
      intro x hx
      rcases List.mem_cons.mp hx with hx | hx
      · subst hx; exact ha
      · exact hfront x hx

theorem scanRecords_none {name : String} {l : List YandexConnectDnsRecord} :
    scanRecords name l = none ↔ ∀ x ∈ l, ¬ IsTxtOf name x := by
  induction l with
  | nil => simp [scanRecords]
  | cons a rest ih =>
    unfold scanRecords
    by_cases ha : a.Type_ = "TXT" ∧ a.Subdomain = name
    · rw [if_pos ha]
      simp only [List.mem_cons, forall_eq_or_imp, false_iff, reduceCtorEq]
      intro h
      exact h.1 ha
    · rw [if_neg ha, ih]
      simp only [List.mem_cons, forall_eq_or_imp]
      exact ⟨fun h => ⟨ha, h⟩, fun h => h.2⟩

theorem scanRecords_split {name : String} {front back : List YandexConnectDnsRecord}
    {r : YandexConnectDnsRecord} (hr : IsTxtOf name r)
    (hfront : ∀ x ∈ front, ¬ IsTxtOf name x) :
    scanRecords name (front ++ r :: back) = some r := by
  induction front with
  | nil =>
    have hr2 : r.Type_ = "TXT" ∧ r.Subdomain = name := hr
    simp only [List.nil_append, scanRecords, if_pos hr2]
  | cons a rest ih =>
    have ha : ¬ (a.Type_ = "TXT" ∧ a.Subdomain = name) := hfront a (by simp)
    simp only [List.cons_append, scanRecords, if_neg ha]
    exact ih (fun x hx => hfront x (by simp [hx]))

/-- C1: for a list response that does not report an error, `getTextRecord`
returns the first record in listing order whose type is `TXT` and whose
subdomain equals the target name, and no record when the listing has none; for
every response, a record it returns is that first match, so its subdomain is
never a different string. -/
theorem getTextRecord_first_match {σ : Type} (c : YandexConnectClient) (http : Http σ)
    (domain name : String) (w : World σ) (body : Body) (p : σ)
    (hurl : http.urlError (listUrl domain) = none)
    (hrt : http.roundTrip w.provider (signed c.pddToken "GET" (listUrl domain))
      = (.ok body, p)) :
    ((unmarshalListResponse body).Success ≠ "error" →
      (∀ front r back, (unmarshalListResponse body).Records = front ++ r :: back →
        IsTxtOf name r → (∀ x ∈ front, ¬ IsTxtOf name x) →
        (getTextRecord c http domain name w).1 = .ok (some r)) ∧
      ((∀ x ∈ (unmarshalListResponse body).Records, ¬ IsTxtOf name x) →
        (getTextRecord c http domain name w).1 = .ok none)) ∧
    (∀ r, (getTextRecord c http domain name w).1 = .ok (some r) →
      r.Type_ = "TXT" ∧ r.Subdomain = name ∧
      ∃ front back, (unmarshalListResponse body).Records = front ++ r :: back ∧
        ∀ x ∈ front, ¬ IsTxtOf name x) := by
  rw [getTextRecord_delivered c http domain name w body p hurl hrt]
  refine ⟨fun hok => ⟨?_, ?_⟩, ?_⟩
  · intro front r back hl hr hfront
    simp only [if_neg hok, hl, scanRecords_split hr hfront]
  · intro hnone
    simp only [if_neg hok, scanRecords_none.mpr hnone]
  · intro r hr
    by_cases herr : (unmarshalListResponse body).Success = "error"
    · simp [if_pos herr] at hr
    · simp only [if_neg herr, Outcome.ok.injEq] at hr
      obtain ⟨h1, h2⟩ := scanRecords_some hr
      exact ⟨h1.1, h1.2, h2⟩

/-- The lookup of `_acme-challenge` in a listing that starts with
`_acme-challenge-old` returns the second record, the first exact match. -/
theorem getTextRecord_first_match_witness :
    (scriptedHttp
        (.ok (listingBody "example.com"
          [txtRecord 1 "_acme-challenge-old" "a", txtRecord 2 "_acme-challenge" "b",
            txtRecord 3 "_acme-challenge" "c"]))
        (.ok (statusBody "example.com" "ok" none))).urlError (listUrl "example.com") = none ∧
    (getTextRecord (NewYandexConnectClient "secret")
        (scriptedHttp
          (.ok (listingBody "example.com"
            [txtRecord 1 "_acme-challenge-old" "a", txtRecord 2 "_acme-challenge" "b",
              txtRecord 3 "_acme-challenge" "c"]))
          (.ok (statusBody "example.com" "ok" none)))
        "example.com" "_acme-challenge" startWorld).1
      = .ok (some (txtRecord 2 "_acme-challenge" "b")) :=
  ⟨rfl,
    ((getTextRecord_first_match (NewYandexConnectClient "secret")
      (scriptedHttp
        (.ok (listingBody "example.com"
          [txtRecord 1 "_acme-challenge-old" "a", txtRecord 2 "_acme-challenge" "b",
            txtRecord 3 "_acme-challenge" "c"]))
        (.ok (statusBody "example.com" "ok" none)))
      "example.com" "_acme-challenge" startWorld _ () rfl rfl).1 (by decide)).1
      [txtRecord 1 "_acme-challenge-old" "a"] (txtRecord 2 "_acme-challenge" "b")
      [txtRecord 3 "_acme-challenge" "c"] rfl (by decide) (by decide)⟩

/-! ## The solver over a delivered listing -/

theorem HasTxtRecord_delivered {σ : Type} (c : YandexConnectClient) (http : Http σ)
    (domain name : String) (w : World σ) (body : Body) (p : σ)
    (hurl : http.urlError (listUrl domain) = none)
    (hrt : http.roundTrip w.provider (signed c.pddToken "GET" (listUrl domain)) = (.ok body, p)) :
    HasTxtRecord c http domain name w =
      (.ok (decide ((unmarshalListResponse body).Success ≠ "error") &&
          (scanRecords name (unmarshalListResponse body).Records).isSome),
      { provider := p, sent := w.sent ++ [signed c.pddToken "GET" (listUrl domain)] }) := by
  unfold HasTxtRecord
  rw [getTextRecord_delivered c http domain name w body p hurl hrt]
  by_cases herr : (unmarshalListResponse body).Success = "error"
  · simp [herr]
  · simp [herr]

theorem HasTxtRecord_transport_error {σ : Type} (c : YandexConnectClient) (http : Http σ)
    (domain name : String) (w : World σ) (e : String) (p : σ)
    (hurl : http.urlError (listUrl domain) = none)
    (hrt : http.roundTrip w.provider (signed c.pddToken "GET" (listUrl domain)) = (.error e, p)) :
    HasTxtRecord c http domain name w =
      (.ok false,
      { provider := p, sent := w.sent ++ [signed c.pddToken "GET" (listUrl domain)] }) := by
  unfold HasTxtRecord
  rw [getTextRecord_transport_error c http domain name w e p hurl hrt]

theorem Present_after_lookup {σ : Type} (solver : yandexConnectDNSProviderSolver) (http : Http σ)
    (cr : ChallengeRequest) (w : World σ) (cfg : yandexConnectDNSProviderConfig)
    (token entry domain : String)
    (hcfg : loadConfig cr.Config = .ok cfg)
    (htok : getPddToken solver cfg cr.ResourceNamespace = .ok token)
    (hde : getDomainAndEntry cr = (entry, domain)) :
    Present solver http cr w =
      match HasTxtRecord (NewYandexConnectClient token) http domain entry w with
      | (.panic, w1) => (.panic, w1)
      | (.error e, w1) => (.error ("unable to check TXT record: " ++ e), w1)
      | (.ok isRecordPresent, w1) =>
        if isRecordPresent then
          match UpdateTxtRecord (NewYandexConnectClient token) http domain entry cr.Key
              DnsRecordTtl w1 with
          | (.panic, w2) => (.panic, w2)
          | (.error e, w2) => (.error ("unable to change TXT record: " ++ e), w2)
          | (.ok _, w2) => (.ok (), w2)
        else
          match CreateTxtRecord (NewYandexConnectClient token) http domain entry cr.Key
              DnsRecordTtl w1 with
          | (.panic, w2) => (.panic, w2)
          | (.error e, w2) => (.error ("unable to create TXT record: " ++ e), w2)
          | (.ok _, w2) => (.ok (), w2) := by
  simp only [Present, hcfg, htok, hde]

theorem CleanUp_after_lookup {σ : Type} (solver : yandexConnectDNSProviderSolver) (http : Http σ)
    (cr : ChallengeRequest) (w : World σ) (cfg : yandexConnectDNSProviderConfig)
    (token entry domain : String)
    (hcfg : loadConfig cr.Config = .ok cfg)
    (htok : getPddToken solver cfg cr.ResourceNamespace = .ok token)
    (hde : getDomainAndEntry cr = (entry, domain)) :
    CleanUp solver http cr w =
      match HasTxtRecord (NewYandexConnectClient token) http domain entry w with
      | (.panic, w1) => (.panic, w1)
      | (.error e, w1) => (.error ("unable to check TXT record: " ++ e), w1)
      | (.ok isRecordPresent, w1) =>
        if isRecordPresent then
          match DeleteTxtRecord (NewYandexConnectClient token) http domain entry w1 with
          | (.panic, w2) => (.panic, w2)
          | (.error e, w2) => (.error ("unable to remove TXT record: " ++ e), w2)
          | (.ok _, w2) => (.ok (), w2)
        else (.ok (), w1) := by
  simp only [CleanUp, hcfg, htok, hde]

theorem token_of_client (token : String) : (NewYandexConnectClient token).pddToken = token := rfl

theorem CreateTxtRecord_sent {σ : Type} (c : YandexConnectClient) (http : Http σ)
    (domain name value : String) (ttl : Int) (w : World σ)
    (hurl : http.urlError (addUrl domain name value ttl) = none) :
    (CreateTxtRecord c http domain name value ttl w).2.sent =
      w.sent ++ [signed c.pddToken "POST" (addUrl domain name value ttl)] := by
  cases hw : http.roundTrip w.provider
      (signed c.pddToken "POST" (addUrl domain name value ttl)) with
  | mk res p =>
    cases res with
    | error e =>
      simp only [CreateTxtRecord, NewRequest_ok http _ _ hurl, doRequest_sent c http _ _ w _ p hw]
    | ok data =>
      rw [CreateTxtRecord_delivered c http domain name value ttl w data p hurl hw]

theorem UpdateTxtRecord_sent {σ : Type} (c : YandexConnectClient) (http : Http σ)
    (domain name value : String) (ttl : Int) (w w1 : World σ) (record : YandexConnectDnsRecord)
    (hget : getTextRecord c http domain name w = (.ok (some record), w1))
    (hurl : http.urlError (editUrl record.RecordId domain name value ttl) = none) :
    (UpdateTxtRecord c http domain name value ttl w).2.sent =
      w1.sent ++ [signed c.pddToken "POST" (editUrl record.RecordId domain name value ttl)] := by
  cases hw : http.roundTrip w1.provider
      (signed c.pddToken "POST" (editUrl record.RecordId domain name value ttl)) with
  | mk res p =>
    cases res with
    | error e =>
      simp only [UpdateTxtRecord, hget, NewRequest_ok http _ _ hurl,
        doRequest_sent c http _ _ w1 _ p hw]
    | ok data =>
      rw [UpdateTxtRecord_delivered c http domain name value ttl w w1 record data p hget hurl hw]

theorem DeleteTxtRecord_sent {σ : Type} (c : YandexConnectClient) (http : Http σ)
    (domain name : String) (w w1 : World σ) (record : YandexConnectDnsRecord)
    (hget : getTextRecord c http domain name w = (.ok (some record), w1))
    (hurl : http.urlError (delUrl record.RecordId domain) = none) :
    (DeleteTxtRecord c http domain name w).2.sent =
      w1.sent ++ [signed c.pddToken "POST" (delUrl record.RecordId domain)] := by
  cases hw : http.roundTrip w1.provider
      (signed c.pddToken "POST" (delUrl record.RecordId domain)) with
  | mk res p =>
    cases res with
    | error e =>
      simp only [DeleteTxtRecord, hget, NewRequest_ok http _ _ hurl,
        doRequest_sent c http _ _ w1 _ p hw]
    | ok data =>
      rw [DeleteTxtRecord_delivered c http domain name w w1 record data p hget hurl hw]

/-- C2: over a listing that is delivered without error (and is the same for the
lookups of one call), when the listing has a TXT record of the subdomain,
`Present` sends the two lookups and exactly one write, the /edit request with
the record id of the first such record and the challenge key as content, and no
/add; when the listing has no such record it sends one lookup and the /add
request, and no /edit. -/
theorem Present_edits_first_match_or_adds {σ : Type} (solver : yandexConnectDNSProviderSolver)
    (http : Http σ) (cr : ChallengeRequest) (w : World σ)
    (cfg : yandexConnectDNSProviderConfig) (token entry domain : String) (body : Body) (p1 : σ)
    (hcfg : loadConfig cr.Config = .ok cfg)
    (htok : getPddToken solver cfg cr.ResourceNamespace = .ok token)
    (hde : getDomainAndEntry cr = (entry, domain))
    (hurl : http.urlError (listUrl domain) = none)
    (hrt : http.roundTrip w.provider (signed token "GET" (listUrl domain)) = (.ok body, p1))
    (hok : (unmarshalListResponse body).Success ≠ "error") :
    (∀ front r back p2, (unmarshalListResponse body).Records = front ++ r :: back →
      IsTxtOf entry r → (∀ x ∈ front, ¬ IsTxtOf entry x) →
      http.roundTrip p1 (signed token "GET" (listUrl domain)) = (.ok body, p2) →
      http.urlError (editUrl r.RecordId domain entry cr.Key DnsRecordTtl) = none →
      (Present solver http cr w).2.sent = w.sent ++
        [signed token "GET" (listUrl domain), signed token "GET" (listUrl domain),
          signed token "POST" (editUrl r.RecordId domain entry cr.Key DnsRecordTtl)]) ∧
    ((∀ x ∈ (unmarshalListResponse body).Records, ¬ IsTxtOf entry x) →
      http.urlError (addUrl domain entry cr.Key DnsRecordTtl) = none →
      (Present solver http cr w).2.sent = w.sent ++
        [signed token "GET" (listUrl domain),
          signed token "POST" (addUrl domain entry cr.Key DnsRecordTtl)]) := by
  have hhas := HasTxtRecord_delivered (NewYandexConnectClient token) http domain entry w body p1
    hurl hrt
  rw [Present_after_lookup solver http cr w cfg token entry domain hcfg htok hde, hhas]
  constructor
  · intro front r back p2 hl hr hfront hrt2 hurl2
    have hscan : scanRecords entry (unmarshalListResponse body).Records = some r := by
      rw [hl]; exact scanRecords_split hr hfront
    have hget := getTextRecord_found (NewYandexConnectClient token) http domain entry
      { provider := p1, sent := w.sent ++ [signed token "GET" (listUrl domain)] } body p2
      hurl hrt2 hok
    rw [hscan] at hget
    have hsent := UpdateTxtRecord_sent (NewYandexConnectClient token) http domain entry cr.Key
      DnsRecordTtl _ _ r hget hurl2
    simp only [hok, hscan, ne_eq, not_false_eq_true, decide_True, Option.isSome_some,
      Bool.and_self, if_true, token_of_client] at hsent ⊢
    rcases hX : UpdateTxtRecord (NewYandexConnectClient token) http domain entry cr.Key
      DnsRecordTtl { provider := p1, sent := w.sent ++ [signed token "GET" (listUrl domain)] }
      with ⟨res, w2⟩
    rw [hX] at hsent
    cases res <;> simpa using hsent
  · intro hnone hurl2
    have hscan : scanRecords entry (unmarshalListResponse body).Records = none :=
      scanRecords_none.mpr hnone
    have hsent := CreateTxtRecord_sent (NewYandexConnectClient token) http domain entry cr.Key
      DnsRecordTtl { provider := p1, sent := w.sent ++ [signed token "GET" (listUrl domain)] }
      hurl2
    simp only [hscan, Option.isSome_none, Bool.and_false, Bool.false_eq_true, if_false,
      token_of_client] at hsent ⊢
    rcases hX : CreateTxtRecord (NewYandexConnectClient token) http domain entry cr.Key
      DnsRecordTtl { provider := p1, sent := w.sent ++ [signed token "GET" (listUrl domain)] }
      with ⟨res, w2⟩
    rw [hX] at hsent
    cases res <;> simpa using hsent

/-- With record 42 the first TXT record of `_acme-challenge`, `Present` sends
the two lookups and the /edit for record 42. -/
theorem Present_edits_first_match_or_adds_witness :
    (Present exampleSolver
        (scriptedHttp (.ok (listingBody "example.com"
            [txtRecord 7 "www" "x", txtRecord 42 "_acme-challenge" "old",
              txtRecord 43 "_acme-challenge" "other"]))
          (.ok (statusBody "example.com" "ok" none)))
        (exampleChallenge "new") startWorld).2.sent =
      startWorld.sent ++
      [signed "secret" "GET" (listUrl "example.com"),
        signed "secret" "GET" (listUrl "example.com"),
        signed "secret" "POST" (editUrl (txtRecord 42 "_acme-challenge" "old").RecordId
          "example.com" "_acme-challenge" (exampleChallenge "new").Key DnsRecordTtl)] :=
  (Present_edits_first_match_or_adds exampleSolver
    (scriptedHttp (.ok (listingBody "example.com"
        [txtRecord 7 "www" "x", txtRecord 42 "_acme-challenge" "old",
          txtRecord 43 "_acme-challenge" "other"]))
      (.ok (statusBody "example.com" "ok" none)))
    (exampleChallenge "new") startWorld
    { PddTokenSecretRef := { Name := "yandex", Key := "token" } } "secret"
    "_acme-challenge" "example.com" _ () rfl rfl (by decide) rfl rfl (by decide)).1
    [txtRecord 7 "www" "x"] (txtRecord 42 "_acme-challenge" "old")
    [txtRecord 43 "_acme-challenge" "other"] () rfl (by decide) (by decide) rfl rfl

/-- C3: when the listing delivered to `CleanUp` has no TXT record of the
subdomain, `CleanUp` returns success and the only request it sends is the
lookup: no /del, /add or /edit. -/
theorem CleanUp_absent_is_noop {σ : Type} (solver : yandexConnectDNSProviderSolver)
    (http : Http σ) (cr : ChallengeRequest) (w : World σ)
    (cfg : yandexConnectDNSProviderConfig) (token entry domain : String) (body : Body) (p1 : σ)
    (hcfg : loadConfig cr.Config = .ok cfg)
    (htok : getPddToken solver cfg cr.ResourceNamespace = .ok token)
    (hde : getDomainAndEntry cr = (entry, domain))
    (hurl : http.urlError (listUrl domain) = none)
    (hrt : http.roundTrip w.provider (signed token "GET" (listUrl domain)) = (.ok body, p1))
    (hnone : ∀ x ∈ (unmarshalListResponse body).Records, ¬ IsTxtOf entry x) :
    (CleanUp solver http cr w).1 = .ok () ∧
    (CleanUp solver http cr w).2.sent = w.sent ++ [signed token "GET" (listUrl domain)] ∧
    (CleanUp solver http cr w).2.provider = p1 := by
  have hhas := HasTxtRecord_delivered (NewYandexConnectClient token) http domain entry w body p1
    hurl hrt
  rw [CleanUp_after_lookup solver http cr w cfg token entry domain hcfg htok hde, hhas,
    scanRecords_none.mpr hnone]
  simp [token_of_client]

/-- With only `www` and `_acme-challenge-old` listed, `CleanUp` for
`_acme-challenge` succeeds after the single lookup. -/
theorem CleanUp_absent_is_noop_witness :
    (CleanUp exampleSolver
        (scriptedHttp (.ok (listingBody "example.com"
            [txtRecord 7 "www" "x", txtRecord 8 "_acme-challenge-old" "y"]))
          (.ok (statusBody "example.com" "ok" none)))
        (exampleChallenge "key") startWorld).1 = .ok () ∧
    (CleanUp exampleSolver
        (scriptedHttp (.ok (listingBody "example.com"
            [txtRecord 7 "www" "x", txtRecord 8 "_acme-challenge-old" "y"]))
          (.ok (statusBody "example.com" "ok" none)))
        (exampleChallenge "key") startWorld).2.sent =
      startWorld.sent ++ [signed "secret" "GET" (listUrl "example.com")] :=
  have h := CleanUp_absent_is_noop exampleSolver
    (scriptedHttp (.ok (listingBody "example.com"
        [txtRecord 7 "www" "x", txtRecord 8 "_acme-challenge-old" "y"]))
      (.ok (statusBody "example.com" "ok" none)))
    (exampleChallenge "key") startWorld
    { PddTokenSecretRef := { Name := "yandex", Key := "token" } } "secret"
    "_acme-challenge" "example.com" _ () rfl rfl (by decide) rfl rfl (by decide)
  ⟨h.1, h.2.1⟩

/-- C4: when the body delivered for the /add request has the success field
`error`, `CreateTxtRecord` returns an error, and the message of that error
contains the error string of the body. -/
theorem CreateTxtRecord_provider_error {σ : Type} (c : YandexConnectClient) (http : Http σ)
    (domain name value : String) (ttl : Int) (w : World σ) (body : Body) (p : σ)
    (hurl : http.urlError (addUrl domain name value ttl) = none)
    (hrt : http.roundTrip w.provider (signed c.pddToken "POST" (addUrl domain name value ttl))
      = (.ok body, p))
    (herr : (unmarshalAddResponse body).Success = "error") :
    ∃ msg, (CreateTxtRecord c http domain name value ttl w).1 = .error msg ∧
      msg = "add DNS-record request for domain " ++ domain ++ " failed with error: '"
        ++ (unmarshalAddResponse body).Error ++ "'" ∧
      (unmarshalAddResponse body).Error.data <:+: msg.data := by
  refine ⟨_, ?_, rfl, ?_⟩
  · rw [CreateTxtRecord_delivered c http domain name value ttl w body p hurl hrt, if_pos herr]
  · simp only [String.data_append]
    exact ⟨_, _, rfl⟩

/-- The body with success `error` and error `domain not found` makes
`CreateTxtRecord` fail with that text in the message. -/
theorem CreateTxtRecord_provider_error_witness :
    (unmarshalAddResponse
        (statusBody "example.com" "error" (some "domain not found"))).Success = "error" ∧
    (CreateTxtRecord (NewYandexConnectClient "secret")
        (scriptedHttp (.ok (listingBody "example.com" []))
          (.ok (statusBody "example.com" "error" (some "domain not found"))))
        "example.com" "_acme-challenge" "key" 300 startWorld).1 =
      .error "add DNS-record request for domain example.com failed with error: 'domain not found'" :=
  ⟨rfl, by
    obtain ⟨msg, h1, h2, _⟩ := CreateTxtRecord_provider_error (NewYandexConnectClient "secret")
      (scriptedHttp (.ok (listingBody "example.com" []))
        (.ok (statusBody "example.com" "error" (some "domain not found"))))
      "example.com" "_acme-challenge" "key" 300 startWorld _ () rfl rfl rfl
    rw [h1, h2]
    decide⟩

/-- C5, evaluated where the lookup fails: with a transport error on /list, and
with a /list body whose success field is `error`, `getTextRecord` reports the
error but `HasTxtRecord` returns `false` with a nil error, so `CleanUp`
returns success and `Present` goes on to send /add. -/
theorem failed_lookup_is_read_as_absent :
    (getTextRecord (NewYandexConnectClient "secret")
        (scriptedHttp (.error "dial tcp: i/o timeout") (.ok (statusBody "example.com" "ok" none)))
        "example.com" "_acme-challenge" startWorld).1 = .error "dial tcp: i/o timeout" ∧
    (HasTxtRecord (NewYandexConnectClient "secret")
        (scriptedHttp (.error "dial tcp: i/o timeout") (.ok (statusBody "example.com" "ok" none)))
        "example.com" "_acme-challenge" startWorld).1 = .ok false ∧
    (CleanUp exampleSolver
        (scriptedHttp (.error "dial tcp: i/o timeout") (.ok (statusBody "example.com" "ok" none)))
        (exampleChallenge "key") startWorld).1 = .ok () ∧
    (Present exampleSolver
        (scriptedHttp (.error "dial tcp: i/o timeout") (.ok (statusBody "example.com" "ok" none)))
        (exampleChallenge "key") startWorld).1 = .ok () ∧
    (Present exampleSolver
        (scriptedHttp (.error "dial tcp: i/o timeout") (.ok (statusBody "example.com" "ok" none)))
        (exampleChallenge "key") startWorld).2.sent =
      [signed "secret" "GET" (listUrl "example.com"),
        signed "secret" "POST" (addUrl "example.com" "_acme-challenge" "key" 300)] ∧
    (HasTxtRecord (NewYandexConnectClient "secret")
        (scriptedHttp (.ok (statusBody "example.com" "error" (some "no_auth")))
          (.ok (statusBody "example.com" "ok" none)))
        "example.com" "_acme-challenge" startWorld).1 = .ok false ∧
    (CleanUp exampleSolver
        (scriptedHttp (.ok (statusBody "example.com" "error" (some "no_auth")))
          (.ok (statusBody "example.com" "ok" none)))
        (exampleChallenge "key") startWorld).1 = .ok () := by
  set_option maxRecDepth 100000 in decide

/-- C9, evaluated on two TXT records of the same name: the listing holds record
1 with content `other-key` and record 2 with content `my-key`; `CleanUp` for
the key `my-key` returns success having sent /del for record 1, whose content
is not the key. -/
theorem CleanUp_ignores_key :
    (CleanUp exampleSolver
        (scriptedHttp (.ok (listingBody "example.com"
            [txtRecord 1 "_acme-challenge" "other-key", txtRecord 2 "_acme-challenge" "my-key"]))
          (.ok (statusBody "example.com" "ok" none)))
        (exampleChallenge "my-key") startWorld).1 = .ok () ∧
    (CleanUp exampleSolver
        (scriptedHttp (.ok (listingBody "example.com"
            [txtRecord 1 "_acme-challenge" "other-key", txtRecord 2 "_acme-challenge" "my-key"]))
          (.ok (statusBody "example.com" "ok" none)))
        (exampleChallenge "my-key") startWorld).2.sent =
      [signed "secret" "GET" (listUrl "example.com"),
        signed "secret" "GET" (listUrl "example.com"),
        signed "secret" "POST" (delUrl 1 "example.com")] ∧
    (txtRecord 1 "_acme-challenge" "other-key").Content ≠ (exampleChallenge "my-key").Key := by
  set_option maxRecDepth 100000 in decide

/-- C6, as stated, fails: an empty body, a body that is not JSON, a JSON object
without the success field, and a body whose success field is neither `ok` nor
`error`, each make `CreateTxtRecord` return success; the empty body makes the
lookup return "no record" without an error. -/
theorem CreateTxtRecord_accepts_malformed_body :
    (CreateTxtRecord (NewYandexConnectClient "secret")
        (scriptedHttp (.ok (listingBody "example.com" [])) (.ok (.malformed "")))
        "example.com" "_acme-challenge" "key" 300 startWorld).1 = .ok () ∧
    (CreateTxtRecord (NewYandexConnectClient "secret")
        (scriptedHttp (.ok (listingBody "example.com" [])) (.ok (.malformed "<html>502</html>")))
        "example.com" "_acme-challenge" "key" 300 startWorld).1 = .ok () ∧
    (CreateTxtRecord (NewYandexConnectClient "secret")
        (scriptedHttp (.ok (listingBody "example.com" []))
          (.ok (.object { domain := some "example.com", records := none, record := none,
                          record_id := none, success := none, error := none })))
        "example.com" "_acme-challenge" "key" 300 startWorld).1 = .ok () ∧
    (CreateTxtRecord (NewYandexConnectClient "secret")
        (scriptedHttp (.ok (listingBody "example.com" []))
          (.ok (statusBody "example.com" "failed" (some "no_auth"))))
        "example.com" "_acme-challenge" "key" 300 startWorld).1 = .ok () ∧
    (getTextRecord (NewYandexConnectClient "secret")
        (scriptedHttp (.ok (.malformed "")) (.ok (.malformed "")))
        "example.com" "_acme-challenge" startWorld).1 = .ok none := by
  set_option maxRecDepth 100000 in decide

/-- C6, as amended: each client operation (list, add, edit, delete), once its
response body is delivered, returns an error when the success field of the
body is the string `error`, and otherwise returns success: the lookup returns
the result of the scan over the decoded records; add, edit and delete return
nil. A body that is empty, is not JSON, lacks the success field or carries
another success value is therefore accepted. -/
theorem client_fails_exactly_on_error_field {σ : Type} (c : YandexConnectClient) (http : Http σ)
    (domain name value : String) (ttl : Int) (w : World σ) :
    (∀ body p, http.urlError (listUrl domain) = none →
      http.roundTrip w.provider (signed c.pddToken "GET" (listUrl domain)) = (.ok body, p) →
      ((unmarshalListResponse body).Success = "error" →
        ∃ msg, (getTextRecord c http domain name w).1 = .error msg) ∧
      ((unmarshalListResponse body).Success ≠ "error" →
        (getTextRecord c http domain name w).1
          = .ok (scanRecords name (unmarshalListResponse body).Records))) ∧
    (∀ body p, http.urlError (addUrl domain name value ttl) = none →
      http.roundTrip w.provider (signed c.pddToken "POST" (addUrl domain name value ttl))
        = (.ok body, p) →
      ((unmarshalAddResponse body).Success = "error" →
        ∃ msg, (CreateTxtRecord c http domain name value ttl w).1 = .error msg) ∧
      ((unmarshalAddResponse body).Success ≠ "error" →
        (CreateTxtRecord c http domain name value ttl w).1 = .ok ())) ∧
    (∀ w1 record body p, getTextRecord c http domain name w = (.ok (some record), w1) →
      http.urlError (editUrl record.RecordId domain name value ttl) = none →
      http.roundTrip w1.provider
        (signed c.pddToken "POST" (editUrl record.RecordId domain name value ttl))
        = (.ok body, p) →
      ((unmarshalUpdateResponse body).Success = "error" →
        ∃ msg, (UpdateTxtRecord c http domain name value ttl w).1 = .error msg) ∧
      ((unmarshalUpdateResponse body).Success ≠ "error" →
        (UpdateTxtRecord c http domain name value ttl w).1 = .ok ())) ∧
    (∀ w1 record body p, getTextRecord c http domain name w = (.ok (some record), w1) →
      http.urlError (delUrl record.RecordId domain) = none →
      http.roundTrip w1.provider (signed c.pddToken "POST" (delUrl record.RecordId domain))
        = (.ok body, p) →
      ((unmarshalDeleteResponse body).Success = "error" →
        ∃ msg, (DeleteTxtRecord c http domain name w).1 = .error msg) ∧
      ((unmarshalDeleteResponse body).Success ≠ "error" →
        (DeleteTxtRecord c http domain name w).1 = .ok ())) := by
  refine ⟨?_, ?_, ?_, ?_⟩
  · intro body p hurl hrt
    rw [getTextRecord_delivered c http domain name w body p hurl hrt]
    exact ⟨fun h => by rw [if_pos h]; exact ⟨_, rfl⟩, fun h => by rw [if_neg h]⟩
  · intro body p hurl hrt
    rw [CreateTxtRecord_delivered c http domain name value ttl w body p hurl hrt]
    exact ⟨fun h => by rw [if_pos h]; exact ⟨_, rfl⟩, fun h => by rw [if_neg h]⟩
  · intro w1 record body p hget hurl hrt
    rw [UpdateTxtRecord_delivered c http domain name value ttl w w1 record body p hget hurl hrt]
    exact ⟨fun h => by rw [if_pos h]; exact ⟨_, rfl⟩, fun h => by rw [if_neg h]⟩
  · intro w1 record body p hget hurl hrt
    rw [DeleteTxtRecord_delivered c http domain name w w1 record body p hget hurl hrt]
    exact ⟨fun h => by rw [if_pos h]; exact ⟨_, rfl⟩, fun h => by rw [if_neg h]⟩

/-- A /del answered with success `error` fails; an /edit answered with an
empty body succeeds. -/
theorem client_fails_exactly_on_error_field_witness :
    (∃ msg, (DeleteTxtRecord (NewYandexConnectClient "secret")
        (scriptedHttp (.ok (listingBody "example.com" [txtRecord 5 "_acme-challenge" "key"]))
          (.ok (statusBody "example.com" "error" (some "no_such_record"))))
        "example.com" "_acme-challenge" startWorld).1 = .error msg) ∧
    (UpdateTxtRecord (NewYandexConnectClient "secret")
        (scriptedHttp (.ok (listingBody "example.com" [txtRecord 5 "_acme-challenge" "key"]))
          (.ok (.malformed "")))
        "example.com" "_acme-challenge" "key" 300 startWorld).1 = .ok () :=
  ⟨((client_fails_exactly_on_error_field (NewYandexConnectClient "secret")
      (scriptedHttp (.ok (listingBody "example.com" [txtRecord 5 "_acme-challenge" "key"]))
        (.ok (statusBody "example.com" "error" (some "no_such_record"))))
      "example.com" "_acme-challenge" "key" 300 startWorld).2.2.2
      { provider := (), sent := [signed "secret" "GET" (listUrl "example.com")] }
      (txtRecord 5 "_acme-challenge" "key") _ () rfl rfl rfl).1 rfl,
   ((client_fails_exactly_on_error_field (NewYandexConnectClient "secret")
      (scriptedHttp (.ok (listingBody "example.com" [txtRecord 5 "_acme-challenge" "key"]))
        (.ok (.malformed "")))
      "example.com" "_acme-challenge" "key" 300 startWorld).2.2.1
      { provider := (), sent := [signed "secret" "GET" (listUrl "example.com")] }
      (txtRecord 5 "_acme-challenge" "key") _ () rfl rfl rfl).2 (by decide)⟩

/-! ## `Present` over a provider holding a list of records -/

theorem overwrite_RecordId (recordId : Nat) (domain subdomain content : String) (ttl : Int)
    (r : YandexConnectDnsRecord) :
    (overwrite recordId domain subdomain content ttl r).RecordId = r.RecordId := by
  unfold overwrite
  split <;> rfl

theorem overwrite_overwrite (recordId : Nat) (domain subdomain content : String) (ttl : Int)
    (r : YandexConnectDnsRecord) :
    overwrite recordId domain subdomain content ttl
      (overwrite recordId domain subdomain content ttl r)
      = overwrite recordId domain subdomain content ttl r := by
  by_cases h : r.RecordId = recordId
  · simp [overwrite, h]
  · simp [overwrite, h]

theorem overwrite_other {recordId : Nat} (domain subdomain content : String) (ttl : Int)
    {r : YandexConnectDnsRecord} (h : r.RecordId ≠ recordId) :
    overwrite recordId domain subdomain content ttl r = r := by
  simp [overwrite, h]

theorem overwrite_hit {recordId : Nat} (domain subdomain content : String) (ttl : Int)
    {r : YandexConnectDnsRecord} (h : r.RecordId = recordId) :
    IsTxtOf subdomain (overwrite recordId domain subdomain content ttl r) := by
  simp [overwrite, h, IsTxtOf]

theorem overwrite_newRecord (recordId : Nat) (domain subdomain content : String) (ttl : Int) :
    overwrite recordId domain subdomain content ttl
      (newRecord recordId domain subdomain content ttl)
      = newRecord recordId domain subdomain content ttl := by
  simp [overwrite, newRecord]

theorem lt_freshId {records : List YandexConnectDnsRecord} {r : YandexConnectDnsRecord}
    (h : r ∈ records) : r.RecordId < freshId records := by
  induction records with
  | nil => cases h
  | cons a rest ih =>
    simp only [freshId, List.map_cons, List.foldr_cons] at ih ⊢
    rcases List.mem_cons.mp h with h | h
    · subst h; omega
    · have := ih h; omega

theorem map_overwrite_fresh (records : List YandexConnectDnsRecord)
    (domain subdomain content : String) (ttl : Int) :
    (records ++ [newRecord (freshId records) domain subdomain content ttl]).map
        (overwrite (freshId records) domain subdomain content ttl)
      = records ++ [newRecord (freshId records) domain subdomain content ttl] := by
  rw [List.map_append, List.map_singleton, overwrite_newRecord]
  congr 1
  conv_rhs => rw [← List.map_id records]
  apply List.map_congr_left
  intro r hr
  exact overwrite_other _ _ _ _ (Nat.ne_of_lt (lt_freshId hr))

theorem scanRecords_map_overwrite {name : String} (domain content : String) (ttl : Int)
    (recordId : Nat) {records : List YandexConnectDnsRecord} {r : YandexConnectDnsRecord}
    (h : scanRecords name records = some r) (hid : r.RecordId = recordId) :
    ∃ r1, scanRecords name (records.map (overwrite recordId domain name content ttl)) = some r1 ∧
      r1.RecordId = recordId := by
  induction records with
  | nil => simp [scanRecords] at h
  | cons a rest ih =>
    by_cases hit : a.RecordId = recordId
    · refine ⟨overwrite recordId domain name content ttl a, ?_, ?_⟩
      · have hm : (overwrite recordId domain name content ttl a).Type_ = "TXT" ∧
            (overwrite recordId domain name content ttl a).Subdomain = name :=
          overwrite_hit domain name content ttl hit
        simp only [List.map_cons, scanRecords, if_pos hm]
      · rw [overwrite_RecordId]; exact hit
    · have hsame := overwrite_other domain name content ttl hit
      unfold scanRecords at h
      by_cases ha : a.Type_ = "TXT" ∧ a.Subdomain = name
      · rw [if_pos ha] at h
        cases h
        exact absurd hid hit
      · rw [if_neg ha] at h
        obtain ⟨r1, h1, h2⟩ := ih h
        exact ⟨r1, by simp only [List.map_cons, hsame, scanRecords, if_neg ha, h1], h2⟩

theorem scanRecords_mem {name : String} {records : List YandexConnectDnsRecord}
    {r : YandexConnectDnsRecord} (h : scanRecords name records = some r) : r ∈ records := by
  obtain ⟨_, front, back, hl, _⟩ := scanRecords_some h
  rw [hl]; simp

theorem Present_recordProvider_found (decode : String → String → Option Operation)
    (solver : yandexConnectDNSProviderSolver) (cr : ChallengeRequest)
    (cfg : yandexConnectDNSProviderConfig) (token entry domain : String)
    (records : List YandexConnectDnsRecord) (sent : List Request) (ids : List Nat)
    (r : YandexConnectDnsRecord)
    (hcfg : loadConfig cr.Config = .ok cfg)
    (htok : getPddToken solver cfg cr.ResourceNamespace = .ok token)
    (hde : getDomainAndEntry cr = (entry, domain))
    (hread : ReadsAsSent decode domain entry cr.Key ids)
    (hscan : scanRecords entry records = some r) (hid : r.RecordId ∈ ids) :
    Present solver (recordProvider decode) cr { provider := records, sent := sent } =
      (.ok (),
        { provider := records.map (overwrite r.RecordId domain entry cr.Key DnsRecordTtl),
          sent := sent ++
            [signed token "GET" (listUrl domain), signed token "GET" (listUrl domain),
              signed token "POST" (editUrl r.RecordId domain entry cr.Key DnsRecordTtl)] }) := by
  have hlist : ∀ recs, (recordProvider decode).roundTrip recs
      (signed token "GET" (listUrl domain)) = (.ok (listingBody domain recs), recs) := by
    intro recs
    simp only [recordProvider, signed, hread.1]
  have hedit : (recordProvider decode).roundTrip records
      (signed token "POST" (editUrl r.RecordId domain entry cr.Key DnsRecordTtl)) =
      (.ok (statusBody domain "ok" none),
        records.map (overwrite r.RecordId domain entry cr.Key DnsRecordTtl)) := by
    simp only [recordProvider, signed, hread.2.2 _ hid]
  have hok : (unmarshalListResponse (listingBody domain records)).Success ≠ "error" := by
    simp [unmarshalListResponse, listingBody]
  have hrecs : (unmarshalListResponse (listingBody domain records)).Records = records := by
    simp [unmarshalListResponse, listingBody]
  have hhas := HasTxtRecord_delivered (NewYandexConnectClient token) (recordProvider decode)
    domain entry { provider := records, sent := sent } _ records rfl (hlist records)
  have hget := getTextRecord_found (NewYandexConnectClient token) (recordProvider decode)
    domain entry { provider := records, sent := sent ++ [signed token "GET" (listUrl domain)] }
    _ records rfl (hlist records) hok
  rw [hrecs, hscan] at hget
  have hupd := UpdateTxtRecord_delivered (NewYandexConnectClient token) (recordProvider decode)
    domain entry cr.Key DnsRecordTtl _ _ r _ _ hget rfl hedit
  have hok2 : (unmarshalUpdateResponse (statusBody domain "ok" none)).Success ≠ "error" := by
    simp [unmarshalUpdateResponse, statusBody]
  rw [if_neg hok2] at hupd
  rw [Present_after_lookup solver _ cr _ cfg token entry domain hcfg htok hde, hhas]
  simp only [hok, hrecs, hscan, ne_eq, not_false_eq_true, decide_True, Option.isSome_some,
    Bool.and_self, if_true, token_of_client] at hupd ⊢
  rw [hupd]
  simp

theorem Present_recordProvider_absent (decode : String → String → Option Operation)
    (solver : yandexConnectDNSProviderSolver) (cr : ChallengeRequest)
    (cfg : yandexConnectDNSProviderConfig) (token entry domain : String)
    (records : List YandexConnectDnsRecord) (sent : List Request) (ids : List Nat)
    (hcfg : loadConfig cr.Config = .ok cfg)
    (htok : getPddToken solver cfg cr.ResourceNamespace = .ok token)
    (hde : getDomainAndEntry cr = (entry, domain))
    (hread : ReadsAsSent decode domain entry cr.Key ids)
    (hscan : scanRecords entry records = none) :
    Present solver (recordProvider decode) cr { provider := records, sent := sent } =
      (.ok (),
        { provider := records ++
            [newRecord (freshId records) domain entry cr.Key DnsRecordTtl],
          sent := sent ++
            [signed token "GET" (listUrl domain),
              signed token "POST" (addUrl domain entry cr.Key DnsRecordTtl)] }) := by
  have hlist : (recordProvider decode).roundTrip records
      (signed token "GET" (listUrl domain)) = (.ok (listingBody domain records), records) := by
    simp only [recordProvider, signed, hread.1]
  have hadd : (recordProvider decode).roundTrip records
      (signed token "POST" (addUrl domain entry cr.Key DnsRecordTtl)) =
      (.ok (statusBody domain "ok" none),
        records ++ [newRecord (freshId records) domain entry cr.Key DnsRecordTtl]) := by
    simp only [recordProvider, signed, hread.2.1]
  have hrecs : (unmarshalListResponse (listingBody domain records)).Records = records := by
    simp [unmarshalListResponse, listingBody]
  have hhas := HasTxtRecord_delivered (NewYandexConnectClient token) (recordProvider decode)
    domain entry { provider := records, sent := sent } _ records rfl hlist
  have hcre := CreateTxtRecord_delivered (NewYandexConnectClient token) (recordProvider decode)
    domain entry cr.Key DnsRecordTtl
    { provider := records, sent := sent ++ [signed token "GET" (listUrl domain)] } _ _ rfl hadd
  have hok2 : (unmarshalAddResponse (statusBody domain "ok" none)).Success ≠ "error" := by
    simp [unmarshalAddResponse, statusBody]
  rw [if_neg hok2] at hcre
  rw [Present_after_lookup solver _ cr _ cfg token entry domain hcfg htok hde, hhas]
  simp only [hrecs, hscan, Option.isSome_none, Bool.and_false, Bool.false_eq_true, if_false,
    token_of_client] at hcre ⊢
  rw [hcre]
  simp

/-- C8: over a provider that holds a list of records (/list reports them, /add
appends a TXT record with a fresh id, /edit overwrites the record with the
given id, each reporting success) and reads the requests of the call as sent,
for every initial list and every challenge: `Present` succeeds and leaves a
list `records1`; run again from `records1` it succeeds, leaves `records1`
unchanged, and sends two lookups and one /edit for the first matching record,
and no /add. -/
theorem Present_idempotent (decode : String → String → Option Operation)
    (solver : yandexConnectDNSProviderSolver) (cr : ChallengeRequest)
    (cfg : yandexConnectDNSProviderConfig) (token entry domain : String)
    (records : List YandexConnectDnsRecord)
    (hcfg : loadConfig cr.Config = .ok cfg)
    (htok : getPddToken solver cfg cr.ResourceNamespace = .ok token)
    (hde : getDomainAndEntry cr = (entry, domain))
    (hread : ReadsAsSent decode domain entry cr.Key
      (records.map (fun r => r.RecordId) ++ [freshId records])) :
    ∃ records1 sent1 r,
      Present solver (recordProvider decode) cr { provider := records, sent := [] }
        = (.ok (), { provider := records1, sent := sent1 }) ∧
      scanRecords entry records1 = some r ∧
      Present solver (recordProvider decode) cr { provider := records1, sent := [] }
        = (.ok (),
            { provider := records1,
              sent := [signed token "GET" (listUrl domain), signed token "GET" (listUrl domain),
                signed token "POST" (editUrl r.RecordId domain entry cr.Key DnsRecordTtl)] }) := by
  cases hscan : scanRecords entry records with
  | none =>
    have hnew : IsTxtOf entry (newRecord (freshId records) domain entry cr.Key DnsRecordTtl) :=
      ⟨rfl, rfl⟩
    have hscan1 : scanRecords entry
        (records ++ [newRecord (freshId records) domain entry cr.Key DnsRecordTtl])
        = some (newRecord (freshId records) domain entry cr.Key DnsRecordTtl) :=
      scanRecords_split hnew (scanRecords_none.mp hscan)
    refine ⟨_, _, _, Present_recordProvider_absent decode solver cr cfg token entry domain
      records [] _ hcfg htok hde hread hscan, hscan1, ?_⟩
    have h2 := Present_recordProvider_found decode solver cr cfg token entry domain
      (records ++ [newRecord (freshId records) domain entry cr.Key DnsRecordTtl]) [] _ _
      hcfg htok hde hread hscan1 (by simp [newRecord])
    have hfix := map_overwrite_fresh records domain entry cr.Key DnsRecordTtl
    have hidn : (newRecord (freshId records) domain entry cr.Key DnsRecordTtl).RecordId
        = freshId records := rfl
    rw [hidn, hfix] at h2
    rw [h2, hidn]
    rfl
  | some r =>
    obtain ⟨r1, hscan1, hid1⟩ :=
      scanRecords_map_overwrite domain cr.Key DnsRecordTtl r.RecordId hscan rfl
    have hmem : r.RecordId ∈ records.map (fun r => r.RecordId) ++ [freshId records] := by
      simp only [List.mem_append, List.mem_map]
      exact Or.inl ⟨r, scanRecords_mem hscan, rfl⟩
    refine ⟨_, _, r1, Present_recordProvider_found decode solver cr cfg token entry domain
      records [] _ r hcfg htok hde hread hscan hmem, hscan1, ?_⟩
    have h2 := Present_recordProvider_found decode solver cr cfg token entry domain
      (records.map (overwrite r.RecordId domain entry cr.Key DnsRecordTtl)) [] _ r1
      hcfg htok hde hread hscan1 (by rw [hid1]; exact hmem)
    rw [h2, hid1, List.map_map]
    have hfix : (overwrite r.RecordId domain entry cr.Key DnsRecordTtl ∘
        overwrite r.RecordId domain entry cr.Key DnsRecordTtl)
        = overwrite r.RecordId domain entry cr.Key DnsRecordTtl := by
      funext x
      exact overwrite_overwrite _ _ _ _ _ x
    rw [hfix]
    rfl

/-- From the empty list, with a provider that reads the query string of each
request, `Present` run twice leaves the list of the first run. -/
theorem Present_idempotent_witness :
    ReadsAsSent readRequest "example.com" "_acme-challenge" (exampleChallenge "Zm9vYmFy").Key
        (([] : List YandexConnectDnsRecord).map (fun r => r.RecordId) ++ [freshId []]) ∧
    ∃ records1 sent1 r,
      Present exampleSolver (recordProvider readRequest) (exampleChallenge "Zm9vYmFy")
          { provider := [], sent := [] }
        = (.ok (), { provider := records1, sent := sent1 }) ∧
      scanRecords "_acme-challenge" records1 = some r ∧
      Present exampleSolver (recordProvider readRequest) (exampleChallenge "Zm9vYmFy")
          { provider := records1, sent := [] }
        = (.ok (),
            { provider := records1,
              sent := [signed "secret" "GET" (listUrl "example.com"),
                signed "secret" "GET" (listUrl "example.com"),
                signed "secret" "POST" (editUrl r.RecordId "example.com" "_acme-challenge"
                  (exampleChallenge "Zm9vYmFy").Key DnsRecordTtl)] }) :=
  have hread : ReadsAsSent readRequest "example.com" "_acme-challenge"
      (exampleChallenge "Zm9vYmFy").Key
      (([] : List YandexConnectDnsRecord).map (fun r => r.RecordId) ++ [freshId []]) := by
    unfold ReadsAsSent
    set_option maxRecDepth 100000 in decide
  ⟨hread, Present_idempotent readRequest exampleSolver (exampleChallenge "Zm9vYmFy")
    { PddTokenSecretRef := { Name := "yandex", Key := "token" } } "secret"
    "_acme-challenge" "example.com" [] rfl rfl (by decide) hread⟩

/-! ## The URLs and their query strings -/

theorem splitOn_plain {sep : Char} {l : List Char} (h : ∀ c ∈ l, c ≠ sep) :
    splitOn sep l = [l] := by
  induction l with
  | nil => rfl
  | cons a rest ih =>
    have ha : a ≠ sep := h a (by simp)
    simp only [splitOn, if_neg ha, ih (fun c hc => h c (by simp [hc]))]

theorem splitOn_append_sep {sep : Char} {l : List Char} (rest : List Char)
    (h : ∀ c ∈ l, c ≠ sep) :
    splitOn sep (l ++ sep :: rest) = l :: splitOn sep rest := by
  induction l with
  | nil => simp [splitOn]
  | cons a tl ih =>
    have ha : a ≠ sep := h a (by simp)
    have ih2 := ih (fun c hc => h c (by simp [hc]))
    rw [List.cons_append, splitOn, if_neg ha, ih2]

theorem unescape_cons_plain {c : Char} (l : List Char) (hc : c ≠ '%') :
    unescape (c :: l) = (unescape l).map (fun t => plusToSpace c :: t) := by
  match l with
  | [] => simp [unescape, hc]
  | [a] => simp [unescape, hc]
  | a :: b :: rest => simp [unescape, hc]

theorem unescape_plain {l : List Char} (h : ∀ c ∈ l, c ≠ '%' ∧ c ≠ '+') :
    unescape l = some l := by
  induction l with
  | nil => rfl
  | cons a rest ih =>
    have ha := h a (by simp)
    rw [unescape_cons_plain rest ha.1, ih (fun c hc => h c (by simp [hc]))]
    simp [plusToSpace, ha.2]

theorem unreserved_ne {c : Char} (h : unreserved c = true) :
    c ≠ '&' ∧ c ≠ '#' ∧ c ≠ '%' ∧ c ≠ '+' ∧ c ≠ '=' ∧ c ≠ '?' := by
  refine ⟨?_, ?_, ?_, ?_, ?_, ?_⟩ <;> (intro hc; subst hc; revert h; decide)

theorem digitChar_unreserved (d : Nat) (h : d < 10) : unreserved (Nat.digitChar d) = true := by
  interval_cases d <;> decide

theorem toDigitsCore_unreserved (fuel : Nat) : ∀ (n : Nat) (ds : List Char),
    (∀ c ∈ ds, unreserved c = true) →
    ∀ c ∈ Nat.toDigitsCore 10 fuel n ds, unreserved c = true := by
  induction fuel with
  | zero => intro n ds h; simpa [Nat.toDigitsCore] using h
  | succ k ih =>
    intro n ds h
    have hd : unreserved (Nat.digitChar (n % 10)) = true :=
      digitChar_unreserved _ (Nat.mod_lt _ (by decide))
    have hds : ∀ c ∈ Nat.digitChar (n % 10) :: ds, unreserved c = true := by
      intro c hc
      rcases List.mem_cons.mp hc with hc | hc
      · rw [hc]; exact hd
      · exact h c hc
    unfold Nat.toDigitsCore
    by_cases hz : n / 10 = 0
    · simpa only [hz, if_true] using hds
    · simpa only [hz, if_false] using ih _ _ hds

theorem natRepr_unreserved (n : Nat) : Unreserved (toString n) := by
  intro c hc
  have : (toString n).data = Nat.toDigits 10 n := rfl
  rw [this] at hc
  exact toDigitsCore_unreserved _ _ _ (by simp) c hc

theorem intRepr_unreserved (i : Int) : Unreserved (toString i) := by
  cases i with
  | ofNat n => exact natRepr_unreserved n
  | negSucc n =>
    intro c hc
    have : (toString (Int.negSucc n)).data = '-' :: (toString (n + 1)).data := rfl
    rw [this] at hc
    rcases List.mem_cons.mp hc with hc | hc
    · rw [hc]; decide
    · exact natRepr_unreserved _ c hc
theorem takeWhile_ne_append {x : Char} {k : List Char} (v : List Char)
    (h : ∀ c ∈ k, c ≠ x) : (k ++ x :: v).takeWhile (fun c => c != x) = k := by
  induction k with
  | nil => simp
  | cons a tl ih =>
    have ha : a ≠ x := h a (by simp)
    simp [List.takeWhile_cons, ha, ih (fun c hc => h c (by simp [hc]))]

theorem dropWhile_ne_append {x : Char} {k : List Char} (v : List Char)
    (h : ∀ c ∈ k, c ≠ x) : (k ++ x :: v).dropWhile (fun c => c != x) = x :: v := by
  induction k with
  | nil => simp
  | cons a tl ih =>
    have ha : a ≠ x := h a (by simp)
    simp [List.dropWhile_cons, ha, ih (fun c hc => h c (by simp [hc]))]

theorem takeWhile_ne_all {x : Char} {l : List Char} (h : ∀ c ∈ l, c ≠ x) :
    l.takeWhile (fun c => c != x) = l := by
  induction l with
  | nil => simp
  | cons a tl ih =>
    have ha : a ≠ x := h a (by simp)
    simp [List.takeWhile_cons, ha, ih (fun c hc => h c (by simp [hc]))]

theorem queryOf_append {pre q : List Char} (hpre : ∀ c ∈ pre, c ≠ '#' ∧ c ≠ '?')
    (hq : ∀ c ∈ q, c ≠ '#') : queryOf (pre ++ '?' :: q) = q := by
  have hall : ∀ c ∈ pre ++ '?' :: q, c ≠ '#' := by
    intro c hc
    rcases List.mem_append.mp hc with hc | hc
    · exact (hpre c hc).1
    · rcases List.mem_cons.mp hc with hc | hc
      · rw [hc]; decide
      · exact hq c hc
  unfold queryOf
  rw [takeWhile_ne_all hall, dropWhile_ne_append q (fun c hc => (hpre c hc).2)]
  rfl

theorem parsePair_plain {k v : List Char} (hk : ∀ c ∈ k, unreserved c = true)
    (hv : ∀ c ∈ v, unreserved c = true) :
    parsePair (k ++ '=' :: v) = some (⟨k⟩, ⟨v⟩) := by
  unfold parsePair
  simp only [takeWhile_ne_append v (fun c hc => (unreserved_ne (hk c hc)).2.2.2.2.1),
    dropWhile_ne_append v (fun c hc => (unreserved_ne (hk c hc)).2.2.2.2.1), List.drop_one,
    List.tail_cons]
  rw [unescape_plain (fun c hc => ⟨(unreserved_ne (hk c hc)).2.2.1, (unreserved_ne (hk c hc)).2.2.2.1⟩),
    unescape_plain (fun c hc => ⟨(unreserved_ne (hv c hc)).2.2.1, (unreserved_ne (hv c hc)).2.2.2.1⟩)]

theorem parsePairs_last {k v : List Char} (hk : ∀ c ∈ k, unreserved c = true)
    (hv : ∀ c ∈ v, unreserved c = true) :
    parsePairs (splitOn '&' (k ++ '=' :: v)) = some [(⟨k⟩, ⟨v⟩)] := by
  have hamp : ∀ c ∈ k ++ '=' :: v, c ≠ '&' := by
    intro c hc
    rcases List.mem_append.mp hc with hc | hc
    · exact (unreserved_ne (hk c hc)).1
    · rcases List.mem_cons.mp hc with hc | hc
      · rw [hc]; decide
      · exact (unreserved_ne (hv c hc)).1
  have hne : k ++ '=' :: v ≠ [] := by simp
  rw [splitOn_plain hamp]
  simp only [parsePairs, if_neg hne, parsePair_plain hk hv]

theorem parsePairs_step {k v : List Char} (rest : List Char)
    (hk : ∀ c ∈ k, unreserved c = true) (hv : ∀ c ∈ v, unreserved c = true) :
    parsePairs (splitOn '&' (k ++ '=' :: (v ++ '&' :: rest))) =
      (parsePairs (splitOn '&' rest)).map (fun kvs => (⟨k⟩, ⟨v⟩) :: kvs) := by
  have hamp : ∀ c ∈ k ++ '=' :: v, c ≠ '&' := by
    intro c hc
    rcases List.mem_append.mp hc with hc | hc
    · exact (unreserved_ne (hk c hc)).1
    · rcases List.mem_cons.mp hc with hc | hc
      · rw [hc]; decide
      · exact (unreserved_ne (hv c hc)).1
  have hne : k ++ '=' :: v ≠ [] := by simp
  have hshape : k ++ '=' :: (v ++ '&' :: rest) = (k ++ '=' :: v) ++ '&' :: rest := by simp
  rw [hshape, splitOn_append_sep rest hamp]
  simp only [parsePairs, if_neg hne, parsePair_plain hk hv]
  cases parsePairs (splitOn '&' rest) <;> rfl

theorem addUrl_data (domain name value : String) (ttl : Int) :
    (addUrl domain name value ttl).data =
      "https://pddimp.yandex.ru/api2/admin/dns/add".data ++ '?' ::
        ("domain".data ++ '=' :: (domain.data ++ '&' ::
        ("subdomain".data ++ '=' :: (name.data ++ '&' ::
        ("type".data ++ '=' :: ("TXT".data ++ '&' ::
        ("content".data ++ '=' :: (value.data ++ '&' ::
        ("ttl".data ++ '=' :: (toString ttl).data))))))))) := by
  have e1 : "https://pddimp.yandex.ru/api2/admin/dns".data ++ "/add?domain=".data =
      "https://pddimp.yandex.ru/api2/admin/dns/add".data ++ '?' :: ("domain".data ++ ['=']) := by
    decide
  have e2 : "&subdomain=".data = '&' :: ("subdomain".data ++ ['=']) := by decide
  have e3 : "&type=TXT&content=".data =
      '&' :: ("type".data ++ '=' :: ("TXT".data ++ '&' :: ("content".data ++ ['=']))) := by decide
  have e4 : "&ttl=".data = '&' :: ("ttl".data ++ ['=']) := by decide
  simp only [addUrl, YandexConnectLiveDnsBaseUrl, String.data_append, e2, e3, e4]
  rw [e1]
  simp only [List.append_assoc, List.cons_append, List.nil_append, List.singleton_append]

theorem listUrl_data (domain : String) :
    (listUrl domain).data =
      "https://pddimp.yandex.ru/api2/admin/dns/list".data ++ '?' ::
        ("domain".data ++ '=' :: domain.data) := by
  have e1 : "https://pddimp.yandex.ru/api2/admin/dns".data ++ "/list?domain=".data =
      "https://pddimp.yandex.ru/api2/admin/dns/list".data ++ '?' :: ("domain".data ++ ['=']) := by
    decide
  simp only [listUrl, YandexConnectLiveDnsBaseUrl, String.data_append]
  rw [e1]
  simp only [List.append_assoc, List.cons_append, List.nil_append, List.singleton_append]

theorem editUrl_data (recordId : Nat) (domain name value : String) (ttl : Int) :
    (editUrl recordId domain name value ttl).data =
      "https://pddimp.yandex.ru/api2/admin/dns/edit".data ++ '?' ::
        ("record_id".data ++ '=' :: ((toString recordId).data ++ '&' ::
        ("domain".data ++ '=' :: (domain.data ++ '&' ::
        ("subdomain".data ++ '=' :: (name.data ++ '&' ::
        ("type".data ++ '=' :: ("TXT".data ++ '&' ::
        ("content".data ++ '=' :: (value.data ++ '&' ::
        ("ttl".data ++ '=' :: (toString ttl).data))))))))))) := by
  have e1 : "https://pddimp.yandex.ru/api2/admin/dns".data ++ "/edit?record_id=".data =
      "https://pddimp.yandex.ru/api2/admin/dns/edit".data ++ '?' :: ("record_id".data ++ ['=']) := by
    decide
  have e0 : "&domain=".data = '&' :: ("domain".data ++ ['=']) := by decide
  have e2 : "&subdomain=".data = '&' :: ("subdomain".data ++ ['=']) := by decide
  have e3 : "&type=TXT&content=".data =
      '&' :: ("type".data ++ '=' :: ("TXT".data ++ '&' :: ("content".data ++ ['=']))) := by decide
  have e4 : "&ttl=".data = '&' :: ("ttl".data ++ ['=']) := by decide
  simp only [editUrl, YandexConnectLiveDnsBaseUrl, String.data_append, e0, e2, e3, e4]
  rw [e1]
  simp only [List.append_assoc, List.cons_append, List.nil_append, List.singleton_append]

theorem delUrl_data (recordId : Nat) (domain : String) :
    (delUrl recordId domain).data =
      "https://pddimp.yandex.ru/api2/admin/dns/del".data ++ '?' ::
        ("record_id".data ++ '=' :: ((toString recordId).data ++ '&' ::
        ("domain".data ++ '=' :: domain.data))) := by
  have e1 : "https://pddimp.yandex.ru/api2/admin/dns".data ++ "/del?record_id=".data =
      "https://pddimp.yandex.ru/api2/admin/dns/del".data ++ '?' :: ("record_id".data ++ ['=']) := by
    decide
  have e0 : "&domain=".data = '&' :: ("domain".data ++ ['=']) := by decide
  simp only [delUrl, YandexConnectLiveDnsBaseUrl, String.data_append, e0]
  rw [e1]
  simp only [List.append_assoc, List.cons_append, List.nil_append, List.singleton_append]

theorem noHash_pair {k v : List Char} (hk : ∀ c ∈ k, unreserved c = true)
    (hv : ∀ c ∈ v, unreserved c = true) : ∀ c ∈ k ++ '=' :: v, c ≠ '#' := by
  intro c hc
  rcases List.mem_append.mp hc with hc | hc
  · exact (unreserved_ne (hk c hc)).2.1
  · rcases List.mem_cons.mp hc with hc | hc
    · rw [hc]; decide
    · exact (unreserved_ne (hv c hc)).2.1

theorem noHash_step {k v rest : List Char} (hk : ∀ c ∈ k, unreserved c = true)
    (hv : ∀ c ∈ v, unreserved c = true) (hrest : ∀ c ∈ rest, c ≠ '#') :
    ∀ c ∈ k ++ '=' :: (v ++ '&' :: rest), c ≠ '#' := by
  intro c hc
  rcases List.mem_append.mp hc with hc | hc
  · exact (unreserved_ne (hk c hc)).2.1
  · rcases List.mem_cons.mp hc with hc | hc
    · rw [hc]; decide
    · rcases List.mem_append.mp hc with hc | hc
      · exact (unreserved_ne (hv c hc)).2.1
      · rcases List.mem_cons.mp hc with hc | hc
        · rw [hc]; decide
        · exact hrest c hc

/-- C7, as amended: the URLs built for /list, /add, /edit and /del carry the
domain, subdomain and content verbatim; when these consist of unreserved
characters only (letters, digits, `-`, `.`, `_`, `~`, which percent-encoding
leaves unchanged), reading the query string yields exactly the parameters of
the endpoint, in order, with values equal to the inputs. -/
theorem urls_carry_unreserved_values (domain name value : String) (ttl : Int) (recordId : Nat)
    (hd : Unreserved domain) (hn : Unreserved name) (hv : Unreserved value) :
    parseQuery (listUrl domain) = some [("domain", domain)] ∧
    parseQuery (addUrl domain name value ttl) =
      some [("domain", domain), ("subdomain", name), ("type", "TXT"), ("content", value),
        ("ttl", toString ttl)] ∧
    parseQuery (editUrl recordId domain name value ttl) =
      some [("record_id", toString recordId), ("domain", domain), ("subdomain", name),
        ("type", "TXT"), ("content", value), ("ttl", toString ttl)] ∧
    parseQuery (delUrl recordId domain) =
      some [("record_id", toString recordId), ("domain", domain)] := by
  have ht := intRepr_unreserved ttl
  have hi := natRepr_unreserved recordId
  have kDomain : ∀ c ∈ "domain".data, unreserved c = true := by decide
  have kSub : ∀ c ∈ "subdomain".data, unreserved c = true := by decide
  have kType : ∀ c ∈ "type".data, unreserved c = true := by decide
  have kTxt : ∀ c ∈ "TXT".data, unreserved c = true := by decide
  have kContent : ∀ c ∈ "content".data, unreserved c = true := by decide
  have kTtl : ∀ c ∈ "ttl".data, unreserved c = true := by decide
  have kId : ∀ c ∈ "record_id".data, unreserved c = true := by decide
  have pList : ∀ c ∈ "https://pddimp.yandex.ru/api2/admin/dns/list".data,
      c ≠ '#' ∧ c ≠ '?' := by decide
  have pAdd : ∀ c ∈ "https://pddimp.yandex.ru/api2/admin/dns/add".data,
      c ≠ '#' ∧ c ≠ '?' := by decide
  have pEdit : ∀ c ∈ "https://pddimp.yandex.ru/api2/admin/dns/edit".data,
      c ≠ '#' ∧ c ≠ '?' := by decide
  have pDel : ∀ c ∈ "https://pddimp.yandex.ru/api2/admin/dns/del".data,
      c ≠ '#' ∧ c ≠ '?' := by decide
  refine ⟨?_, ?_, ?_, ?_⟩
  · unfold parseQuery
    rw [listUrl_data, queryOf_append pList (noHash_pair kDomain hd),
      parsePairs_last kDomain hd]
  · unfold parseQuery
    rw [addUrl_data, queryOf_append pAdd
        (noHash_step kDomain hd (noHash_step kSub hn (noHash_step kType kTxt
          (noHash_step kContent hv (noHash_pair kTtl ht))))),
      parsePairs_step _ kDomain hd, parsePairs_step _ kSub hn, parsePairs_step _ kType kTxt,
      parsePairs_step _ kContent hv, parsePairs_last kTtl ht]
    rfl
  · unfold parseQuery
    rw [editUrl_data, queryOf_append pEdit
        (noHash_step kId hi (noHash_step kDomain hd (noHash_step kSub hn (noHash_step kType kTxt
          (noHash_step kContent hv (noHash_pair kTtl ht)))))),
      parsePairs_step _ kId hi, parsePairs_step _ kDomain hd, parsePairs_step _ kSub hn,
      parsePairs_step _ kType kTxt, parsePairs_step _ kContent hv, parsePairs_last kTtl ht]
    rfl
  · unfold parseQuery
    rw [delUrl_data, queryOf_append pDel (noHash_step kId hi (noHash_pair kDomain hd)),
      parsePairs_step _ kId hi, parsePairs_last kDomain hd]
    rfl

/-- C7, as stated, fails: with the content `a&b=c` the /add URL reads as six
parameters, the content cut to `a` and a parameter `b` added. -/
theorem addUrl_not_encoded :
    parseQuery (addUrl "example.com" "_acme-challenge" "a&b=c" 300) =
        some [("domain", "example.com"), ("subdomain", "_acme-challenge"), ("type", "TXT"),
          ("content", "a"), ("b", "c"), ("ttl", "300")] ∧
      parseQuery (addUrl "example.com" "_acme-challenge" "a&b=c" 300) ≠
        some [("domain", "example.com"), ("subdomain", "_acme-challenge"), ("type", "TXT"),
          ("content", "a&b=c"), ("ttl", "300")] := by
  set_option maxRecDepth 100000 in decide

/-- The /add URL for `example.com`, `_acme-challenge` and a base64 key reads
back as its five parameters. -/
theorem urls_carry_unreserved_values_witness :
    Unreserved "example.com" ∧ Unreserved "_acme-challenge" ∧ Unreserved "Zm9vYmFy" ∧
      parseQuery (addUrl "example.com" "_acme-challenge" "Zm9vYmFy" 300) =
        some [("domain", "example.com"), ("subdomain", "_acme-challenge"), ("type", "TXT"),
          ("content", "Zm9vYmFy"), ("ttl", toString (300 : Int))] :=
  ⟨by decide, by decide, by decide,
    (urls_carry_unreserved_values "example.com" "_acme-challenge" "Zm9vYmFy" 300 7
      (by decide) (by decide) (by decide)).2.1⟩

end YandexConnect
